import Mathlib

/-!
Shallow embedding of the arena2api gateway core (`server.py`) and proofs
about its token pool, profile selection, request translation and
upstream-stream translation.

Conventions of the embedding:
* timestamps and ages are integers (`time.time()` in seconds, token
  timestamps in milliseconds, exactly at the unit used by each source
  line); Python floats are not embeddable, and every boundary the claims
  mention falls on an integral value, so integer time loses nothing the
  claims depend on;
* Python dicts that are used as ordered string maps are modelled as
  association lists in insertion order;
* JSON values are modelled by the inductive `JVal`; the result of
  `json.loads` on a line is supplied alongside the raw line (`none`
  standing for a `JSONDecodeError`), since the JSON parser itself is an
  external library;
* Python truthiness is modelled explicitly (`pyTruthy`, `optTruthy`).
-/

set_option linter.unusedVariables false

/-- Configuration constant `TOKEN_POOL_MAX` (default 30). -/
def TOKEN_POOL_MAX : Nat := 30

/-- Configuration constant `TOKEN_EXPIRY_MS` (default 110000). -/
def TOKEN_EXPIRY_MS : ℤ := 110000

/-- Configuration constant `PROFILE_TIMEOUT_S` (default 120). -/
def PROFILE_TIMEOUT_S : ℤ := 120

/-- Python whitespace as recognised by `str.strip()` (ASCII fragment). -/
def isPyWs (c : Char) : Bool :=
  c = ' ' || c = '\t' || c = '\n' || c = '\r' || c = '\x0b' || c = '\x0c'

/-- Strip leading and trailing whitespace from a character list. -/
def stripList (l : List Char) : List Char :=
  (((l.dropWhile isPyWs).reverse).dropWhile isPyWs).reverse

/-- Model of Python `str.strip()`. -/
def pyStrip (s : String) : String := ⟨stripList s.data⟩

/-- Model of Python `str.lower()`. -/
def pyLower (s : String) : String := ⟨s.data.map Char.toLower⟩

/-- Does the character list start with the given pattern? -/
def startsWithList : List Char → List Char → Bool
  | _, [] => true
  | [], _ :: _ => false
  | c :: cs, d :: ds => c = d && startsWithList cs ds

/-- Does the character list contain the pattern as a contiguous run? -/
def containsSubList (pat : List Char) : List Char → Bool
  | [] => pat.isEmpty
  | c :: cs => startsWithList (c :: cs) pat || containsSubList pat cs

/-- Model of the Python substring test `needle in haystack`. -/
def strContains (haystack needle : String) : Bool :=
  if needle = "" then true else containsSubList needle.data haystack.data

/-- Model of Python `str.startswith`. -/
def pyStartsWith (s pat : String) : Bool :=
  startsWithList s.data pat.data

/-- Model of Python `sep.join(parts)` on character lists. -/
def joinSepList (sep : List Char) : List (List Char) → List Char
  | [] => []
  | [p] => p
  | p :: q :: rest => p ++ sep ++ joinSepList sep (q :: rest)

/-- Model of Python `sep.join(parts)`. -/
def pyJoin (sep : String) (parts : List String) : String :=
  ⟨joinSepList sep.data (parts.map String.data)⟩

/-- JSON values (numbers restricted to integers; floats do not occur in
the payloads the claims are about). -/
inductive JVal where
  | jnull : JVal
  | jbool : Bool → JVal
  | jnum : Int → JVal
  | jstr : String → JVal
  | jarr : List JVal → JVal
  | jobj : List (String × JVal) → JVal

/-- Python truthiness of a decoded JSON value. -/
def pyTruthy : JVal → Bool
  | .jnull => false
  | .jbool b => b
  | .jnum n => n != 0
  | .jstr s => s != ""
  | .jarr xs => !xs.isEmpty
  | .jobj fs => !fs.isEmpty

/-- Truthiness of an optional string (Python `if tok:` where `tok` is
`None` or a `str`). -/
def optTruthy : Option String → Bool
  | none => false
  | some s => s != ""

/-- `d.get(k)` on a decoded JSON object: `jnull` models Python `None`. -/
def jget (fs : List (String × JVal)) (k : String) : JVal :=
  match fs.find? (fun kv => kv.1 = k) with
  | some kv => kv.2
  | none => .jnull

mutual
/-- Python `repr` of a decoded JSON value (as used inside `str` of
containers); string escaping is elided. -/
def pyRepr : JVal → String
  | .jnull => "None"
  | .jbool b => if b then "True" else "False"
  | .jnum n => toString n
  | .jstr s => "'" ++ s ++ "'"
  | .jarr xs => "[" ++ pyReprArr xs ++ "]"
  | .jobj fs => "\x7b" ++ pyReprObj fs ++ "\x7d"

/-- `repr` of list elements joined by `, `. -/
def pyReprArr : List JVal → String
  | [] => ""
  | [x] => pyRepr x
  | x :: y :: rest => pyRepr x ++ ", " ++ pyReprArr (y :: rest)

/-- `repr` of dict items joined by `, `. -/
def pyReprObj : List (String × JVal) → String
  | [] => ""
  | [kv] => "'" ++ kv.1 ++ "': " ++ pyRepr kv.2
  | kv :: kw :: rest => "'" ++ kv.1 ++ "': " ++ pyRepr kv.2 ++ ", " ++ pyReprObj (kw :: rest)
end

/-- Python `str()` of a decoded JSON value (a string prints bare). -/
def pyStr : JVal → String
  | .jstr s => s
  | v => pyRepr v

mutual
/-- Model of `json.dumps(-, ensure_ascii=False)` (string escaping elided). -/
def jdump : JVal → String
  | .jnull => "null"
  | .jbool b => if b then "true" else "false"
  | .jnum n => toString n
  | .jstr s => "\"" ++ s ++ "\""
  | .jarr xs => "[" ++ jdumpArr xs ++ "]"
  | .jobj fs => "\x7b" ++ jdumpObj fs ++ "\x7d"

/-- `json.dumps` of array elements joined by `, `. -/
def jdumpArr : List JVal → String
  | [] => ""
  | [x] => jdump x
  | x :: y :: rest => jdump x ++ ", " ++ jdumpArr (y :: rest)

/-- `json.dumps` of object items joined by `, `. -/
def jdumpObj : List (String × JVal) → String
  | [] => ""
  | [kv] => "\"" ++ kv.1 ++ "\": " ++ jdump kv.2
  | kv :: kw :: rest => "\"" ++ kv.1 ++ "\": " ++ jdump kv.2 ++ ", " ++ jdumpObj (kw :: rest)
end

/-- One entry of a profile's v3 token pool: `{token, action, ts}` with
`ts` an absolute millisecond timestamp. -/
structure TokenEntry where
  token : String
  action : String
  ts : ℤ
  deriving Repr, DecidableEq

/-- The single v2 token slot: `{token, ts}` with `ts` in seconds. -/
structure V2Entry where
  token : String
  ts : ℤ
  deriving Repr, DecidableEq

/-- State of one browser profile (`class ProfileStore`). -/
structure ProfileStore where
  profile_id : String := ""
  cookies : List (String × String) := []
  auth_token : String := ""
  cf_clearance : String := ""
  v3_tokens : List TokenEntry := []
  v2_token : Option V2Entry := none
  last_push : ℤ := 0
  text_models : List (String × String) := []
  image_models : List (String × String) := []
  vision_models : List String := []
  total_tokens_served : Nat := 0
  total_tokens_received : Nat := 0
  last_token_mint : ℤ := 0
  consecutive_empty : Nat := 0
  deriving Repr, DecidableEq

/-- `ProfileStore.active` (property): pushed at least once and within the
profile timeout. -/
def ProfileStore.activeAt (p : ProfileStore) (now : ℤ) : Bool :=
  p.last_push > 0 && (now - p.last_push < PROFILE_TIMEOUT_S)

/-- The non-expired v3 entries at time `now` (the filter used by
`token_count`, `pop_v3_token` and `clean_expired_tokens`). -/
def ProfileStore.validV3 (p : ProfileStore) (now : ℤ) : List TokenEntry :=
  p.v3_tokens.filter (fun t => now * 1000 - t.ts < TOKEN_EXPIRY_MS)

/-- `ProfileStore.token_count` (property). -/
def ProfileStore.token_count (p : ProfileStore) (now : ℤ) : Nat :=
  (p.validV3 now).length

/-- `ProfileStore.health_score` (property). -/
def ProfileStore.health_score (p : ProfileStore) (now : ℤ) : ℤ :=
  if !p.activeAt now then 0
  else
    let tc : ℤ := (p.token_count now : ℤ)
    let score := min (tc * 15) 45
    let score := score + (if p.auth_token != "" then 20 else 0)
    let score := score + (if p.cf_clearance != "" then 10 else 0)
    let score := score + (if !p.text_models.isEmpty then 10 else 0)
    let age := now - p.last_push
    let score := score +
      (if age < 30 then 15 else if age < 60 then 10 else if age < 90 then 5 else 0)
    min score 100

/-- One v3 token of a push payload, with the `.get` defaults already
applied (`token` default `""`, `action` default `"chat_submit"`,
`age_ms` default `0`). -/
structure PushToken where
  token : String := ""
  action : String := "chat_submit"
  age_ms : ℤ := 0
  deriving Repr, DecidableEq

/-- One iteration of the v3 loop of `ProfileStore.push`: validate a
payload token and append it to the pool. -/
def ProfileStore.pushOne (now : ℤ) (p : ProfileStore) (t : PushToken) : ProfileStore :=
  if t.token = "" || t.token.length < 20 then p
  else if t.age_ms > TOKEN_EXPIRY_MS then p
  else if p.v3_tokens.any (fun x => x.token = t.token) then p
  else
    { p with
      v3_tokens := p.v3_tokens ++ [{ token := t.token, action := t.action, ts := now * 1000 - t.age_ms }],
      total_tokens_received := p.total_tokens_received + 1,
      last_token_mint := now }

/-- Stable insertion into a list sorted ascending by a boolean `le`
(mirrors the stability of Python `list.sort`). -/
def insLe (le : α → α → Bool) (x : α) : List α → List α
  | [] => [x]
  | y :: ys => if le x y then x :: y :: ys else y :: insLe le x ys

/-- Stable insertion sort by a boolean `le`. -/
def isortLe (le : α → α → Bool) : List α → List α
  | [] => []
  | x :: xs => insLe le x (isortLe le xs)

/-- Ascending-by-mint-time comparison used by `self.v3_tokens.sort`. -/
def tsLe (a b : TokenEntry) : Bool := a.ts ≤ b.ts

/-- `while len(self.v3_tokens) > TOKEN_POOL_MAX: self.v3_tokens.pop(0)`. -/
def truncatePool (l : List TokenEntry) : List TokenEntry :=
  l.drop (l.length - TOKEN_POOL_MAX)

/-- The v3-token section of `ProfileStore.push` applied to a payload
list (`if data.get("v3_tokens"):` is false for a missing or empty list). -/
def ProfileStore.pushV3 (now : ℤ) (p : ProfileStore) (ts : List PushToken) : ProfileStore :=
  if ts.isEmpty then p
  else
    { ts.foldl (ProfileStore.pushOne now) p with
      v3_tokens := truncatePool (isortLe tsLe
        (ts.foldl (ProfileStore.pushOne now) p).v3_tokens) }

/-- The v2-token section of `ProfileStore.push`: payload `{token, age_ms}`
with defaults applied. -/
def ProfileStore.pushV2 (now : ℤ) (p : ProfileStore) (token : String) (age_ms : ℤ) : ProfileStore :=
  if token != "" && age_ms < TOKEN_EXPIRY_MS then
    { p with v2_token := some { token := token, ts := now - age_ms / 1000 } }
  else p

/-- `ProfileStore.pop_v3_token`: purge expired entries, then pop the
front of the remaining pool. -/
def ProfileStore.pop_v3_token (p : ProfileStore) (now : ℤ) : Option String × ProfileStore :=
  match h : p.validV3 now with
  | [] => (none, { p with v3_tokens := [], consecutive_empty := p.consecutive_empty + 1 })
  | t :: rest =>
      (some t.token,
       { p with v3_tokens := rest, consecutive_empty := 0,
                total_tokens_served := p.total_tokens_served + 1 })

/-- `ProfileStore.pop_v2_token`: one-shot slot, cleared on every read;
expiry check uses a strict `>` against `TOKEN_EXPIRY_MS / 1000`. -/
def ProfileStore.pop_v2_token (p : ProfileStore) (now : ℤ) : Option String × ProfileStore :=
  match p.v2_token with
  | none => (none, p)
  | some v2 =>
      if now - v2.ts > TOKEN_EXPIRY_MS / 1000 then (none, { p with v2_token := none })
      else (some v2.token, { p with v2_token := none })

theorem pushOne_self_or_append (now : ℤ) (p : ProfileStore) (t : PushToken) :
    ProfileStore.pushOne now p t = p ∨
      (ProfileStore.pushOne now p t).v3_tokens =
        p.v3_tokens ++ [{ token := t.token, action := t.action, ts := now * 1000 - t.age_ms }] := by
  unfold ProfileStore.pushOne
  split
  · exact Or.inl rfl
  · split
    · exact Or.inl rfl
    · split
      · exact Or.inl rfl
      · exact Or.inr rfl

/-- Membership in a stable insertion. -/
theorem mem_insLe {le : α → α → Bool} {x a : α} {l : List α} :
    a ∈ insLe le x l ↔ a = x ∨ a ∈ l := by
  induction l with
  | nil => simp [insLe]
  | cons y ys ih =>
      unfold insLe
      split
      · simp only [List.mem_cons]
      · simp only [List.mem_cons, ih]
        tauto

/-- Insertion is a permutation of consing. -/
theorem insLe_perm (le : α → α → Bool) (x : α) (l : List α) :
    (insLe le x l).Perm (x :: l) := by
  induction l with
  | nil => simp [insLe]
  | cons y ys ih =>
      unfold insLe
      split
      · exact List.Perm.refl _
      · exact (ih.cons y).trans (List.Perm.swap x y ys)

/-- Insertion sort permutes its input. -/
theorem isortLe_perm (le : α → α → Bool) (l : List α) :
    (isortLe le l).Perm l := by
  induction l with
  | nil => exact List.Perm.refl _
  | cons x xs ih => exact (insLe_perm le x _).trans (ih.cons x)

/-- Insertion preserves sortedness, for a total transitive boolean order. -/
theorem insLe_pairwise {le : α → α → Bool}
    (htot : ∀ a b, le a b = false → le b a = true)
    (htrans : ∀ a b c, le a b = true → le b c = true → le a c = true)
    (x : α) {l : List α} (h : l.Pairwise (fun a b => le a b = true)) :
    (insLe le x l).Pairwise (fun a b => le a b = true) := by
  induction l with
  | nil => simp [insLe]
  | cons y ys ih =>
      rcases List.pairwise_cons.1 h with ⟨hy, hys⟩
      unfold insLe
      split
      · rename_i hxy
        refine List.pairwise_cons.2 ⟨?_, h⟩
        intro a ha
        rcases List.mem_cons.1 ha with rfl | ha
        · exact hxy
        · exact htrans x y a hxy (hy a ha)
      · rename_i hxy
        refine List.pairwise_cons.2 ⟨?_, ih hys⟩
        intro a ha
        rcases mem_insLe.1 ha with h1 | ha
        · rw [h1]
          exact htot x y (by simpa using hxy)
        · exact hy a ha

/-- Insertion sort sorts, for a total transitive boolean order. -/
theorem isortLe_pairwise {le : α → α → Bool}
    (htot : ∀ a b, le a b = false → le b a = true)
    (htrans : ∀ a b c, le a b = true → le b c = true → le a c = true)
    (l : List α) :
    (isortLe le l).Pairwise (fun a b => le a b = true) := by
  induction l with
  | nil => simp [isortLe]
  | cons x xs ih => exact insLe_pairwise htot htrans x ih

/-- Sorting an already sorted list is the identity. -/
theorem isortLe_of_pairwise {le : α → α → Bool} {l : List α}
    (h : l.Pairwise (fun a b => le a b = true)) : isortLe le l = l := by
  induction l with
  | nil => rfl
  | cons x xs ih =>
      rcases List.pairwise_cons.1 h with ⟨hx, hxs⟩
      unfold isortLe
      rw [ih hxs]
      cases xs with
      | nil => rfl
      | cons y ys =>
          unfold insLe
          rw [if_pos (hx y (List.mem_cons_self y ys))]

/-- Python `dict.update`: existing keys keep their position and take the
new value; new keys are appended in iteration order. -/
def dictUpdate (d e : List (String × String)) : List (String × String) :=
  e.foldl
    (fun acc kv =>
      if acc.any (fun q => q.1 = kv.1) then
        acc.map (fun q => if q.1 = kv.1 then (q.1, kv.2) else q)
      else acc ++ [kv])
    d

/-- Key membership (`k in d`) for a dict modelled as an ordered
association list. -/
def dictHas (d : List (String × String)) (k : String) : Bool :=
  d.any (fun q => q.1 = k)

/-- Key lookup `d[k]` (first matching entry). -/
def dictGet (d : List (String × String)) (k : String) : Option String :=
  (d.find? (fun q => q.1 = k)).map Prod.snd

/-- `StoreManager.get_all_models`: merge `text_models` and `image_models`
across the active profiles, in registry insertion order. -/
def get_all_models (stores : List ProfileStore) (now : ℤ) :
    List (String × String) × List (String × String) :=
  stores.foldl
    (fun acc s =>
      if s.activeAt now then (dictUpdate acc.1 s.text_models, dictUpdate acc.2 s.image_models)
      else acc)
    ([], [])

/-- `StoreManager.resolve_model`: exact text match, exact image match,
then a case-insensitive two-way substring scan of the merged dict. -/
def resolve_model (stores : List ProfileStore) (now : ℤ) (model_name : String) :
    Option String × String × Bool :=
  let all := get_all_models stores now
  match dictGet all.1 model_name with
  | some mid => (some mid, model_name, false)
  | none =>
    match dictGet all.2 model_name with
    | some mid => (some mid, model_name, true)
    | none =>
      let combined := dictUpdate all.1 all.2
      match combined.find? (fun nm =>
          strContains (pyLower nm.1) (pyLower model_name) ||
          strContains (pyLower model_name) (pyLower nm.1)) with
      | some nm => (some nm.2, nm.1, dictHas all.2 nm.1)
      | none => (none, model_name, false)

/-- Descending stable comparison used by
`candidates.sort(key=health_score, reverse=True)`. -/
def scoreGe (now : ℤ) (a b : ProfileStore) : Bool :=
  b.health_score now ≤ a.health_score now

/-- Steps 1-3 of `StoreManager.select_best_profile`: the active filter,
the model filter with fallback, and the stable health-score sort. -/
def candidatesOf (stores : List ProfileStore) (model_name : String) (now : ℤ) :
    List ProfileStore :=
  let act := stores.filter (fun s => s.activeAt now)
  let cands :=
    if model_name != "" then
      let c := act.filter (fun s =>
        dictHas s.text_models model_name || dictHas s.image_models model_name)
      if c.isEmpty then act else c
    else act
  isortLe (scoreGe now) cands

/-- Step 4 of `StoreManager.select_best_profile`: the candidates that
currently hold at least one valid token. -/
def withTokensOf (stores : List ProfileStore) (model_name : String) (now : ℤ) :
    List ProfileStore :=
  (candidatesOf stores model_name now).filter (fun s => s.token_count now > 0)

/-- `StoreManager.select_best_profile` (pure state-passing form: the
round-robin cursor is threaded explicitly). -/
def select_best_profile (stores : List ProfileStore) (robin : Nat)
    (model_name : String) (now : ℤ) : Option ProfileStore × Nat :=
  if (stores.filter (fun s => s.activeAt now)).isEmpty then (none, robin)
  else
    let wt := withTokensOf stores model_name now
    if wt.isEmpty then ((candidatesOf stores model_name now).head?, robin)
    else
      let r := (robin + 1) % wt.length
      (wt.get? (r % wt.length), r)

/-- `k` consecutive invocations of `select_best_profile` with no
intervening state change: returns the selections in order and the final
cursor. -/
def selectIter (stores : List ProfileStore) (model_name : String) (now : ℤ) :
    Nat → Nat → List (Option ProfileStore) × Nat
  | 0, c => ([], c)
  | k + 1, c =>
      let step := select_best_profile stores c model_name now
      let rest := selectIter stores model_name now k step.2
      (step.1 :: rest.1, rest.2)

/-- Filtering by validity preserves mint-time sortedness. -/
theorem validV3_pairwise {p : ProfileStore} {now : ℤ}
    (h : p.v3_tokens.Pairwise (fun a b => a.ts ≤ b.ts)) :
    (p.validV3 now).Pairwise (fun a b => a.ts ≤ b.ts) :=
  List.Pairwise.filter _ h

/-- **C3 counterexample.** The claim says no pop ever returns a token
aged `now - mintedAt ≥ TTL`, at the boundary included.  The V2 pop uses
a strict `>` comparison: a v2 token whose age is exactly the TTL (110 s
for the default `TOKEN_EXPIRY_MS = 110000`) *is* returned. -/
theorem c3_counterexample :
    (ProfileStore.pop_v2_token
        { profile_id := "x3", v2_token := some ⟨"v2boundarytokenvalue", 0⟩ } 110).1 =
      some "v2boundarytokenvalue" ∧
    (110 : ℤ) - 0 ≥ TOKEN_EXPIRY_MS / 1000 := by
  decide

/-- **C3** (amended).  The V3 pop never returns an entry whose age
`now*1000 - ts` reaches `TOKEN_EXPIRY_MS`, and on a mint-time-sorted
pool it returns the oldest non-expired entry.  The V2 pop never returns
a token whose age *strictly exceeds* `TOKEN_EXPIRY_MS / 1000`; unlike
the claim, the token aged exactly the TTL is still returned (see the
counterexample). -/
theorem c3_pop_respects_ttl (p : ProfileStore) (now : ℤ) :
    (∀ tok q, p.pop_v3_token now = (some tok, q) →
      ∃ t ∈ p.v3_tokens, t.token = tok ∧ now * 1000 - t.ts < TOKEN_EXPIRY_MS) ∧
    (p.v3_tokens.Pairwise (fun a b => a.ts ≤ b.ts) →
      ∀ tok q, p.pop_v3_token now = (some tok, q) →
      ∃ t ∈ p.validV3 now, t.token = tok ∧ ∀ u ∈ p.validV3 now, t.ts ≤ u.ts) ∧
    (∀ tok q, p.pop_v2_token now = (some tok, q) →
      ∃ v2, p.v2_token = some v2 ∧ v2.token = tok ∧
        ¬ now - v2.ts > TOKEN_EXPIRY_MS / 1000) := by
  refine ⟨?_, ?_, ?_⟩
  · intro tok q hpop
    unfold ProfileStore.pop_v3_token at hpop
    split at hpop
    · simp at hpop
    · rename_i t rest heq
      have ht : t ∈ p.validV3 now := by
        rw [heq]; exact List.mem_cons_self t rest
      have := List.mem_filter.1 ht
      refine ⟨t, this.1, ?_, by simpa using this.2⟩
      simpa using congrArg Prod.fst hpop
  · intro hsorted tok q hpop
    unfold ProfileStore.pop_v3_token at hpop
    split at hpop
    · simp at hpop
    · rename_i t rest heq
      have hvalid := @validV3_pairwise p now hsorted
      rw [heq] at hvalid
      refine ⟨t, by rw [heq]; exact List.mem_cons_self t rest,
        by simpa using congrArg Prod.fst hpop, ?_⟩
      intro u hu
      rw [heq] at hu
      rcases List.mem_cons.1 hu with h | h
      · rw [h]
      · exact (List.pairwise_cons.1 hvalid).1 u h
  · intro tok q hpop
    unfold ProfileStore.pop_v2_token at hpop
    split at hpop
    · simp at hpop
    · rename_i v2 heq
      split at hpop
      · simp at hpop
      · rename_i hage
        exact ⟨v2, heq, by simpa using congrArg Prod.fst hpop, hage⟩

/-- Concrete profile for the C3 witness: two fresh v3 tokens (older one
first) and a fresh v2 token, observed at `now = 100`. -/
def c3WitnessProfile : ProfileStore :=
  { profile_id := "w3",
    v3_tokens := [⟨"oldoldoldoldoldoldold", "chat_submit", 0⟩,
                  ⟨"newnewnewnewnewnewnew", "chat_submit", 500⟩],
    v2_token := some ⟨"v2witnesstokenvalue0", 50⟩ }

/-- Witness for `c3_pop_respects_ttl` at `c3WitnessProfile`, `now = 100`. -/
theorem c3_pop_respects_ttl_witness :
    (∃ t ∈ c3WitnessProfile.v3_tokens, t.token = "oldoldoldoldoldoldold" ∧
      100 * 1000 - t.ts < TOKEN_EXPIRY_MS) ∧
    (∃ t ∈ c3WitnessProfile.validV3 100, t.token = "oldoldoldoldoldoldold" ∧
      ∀ u ∈ c3WitnessProfile.validV3 100, t.ts ≤ u.ts) ∧
    (∃ v2, c3WitnessProfile.v2_token = some v2 ∧ v2.token = "v2witnesstokenvalue0" ∧
      ¬ (100 : ℤ) - v2.ts > TOKEN_EXPIRY_MS / 1000) :=
  ⟨(c3_pop_respects_ttl c3WitnessProfile 100).1 "oldoldoldoldoldoldold"
      (c3WitnessProfile.pop_v3_token 100).2 (by decide),
   (c3_pop_respects_ttl c3WitnessProfile 100).2.1 (by decide) "oldoldoldoldoldoldold"
      (c3WitnessProfile.pop_v3_token 100).2 (by decide),
   (c3_pop_respects_ttl c3WitnessProfile 100).2.2 "v2witnesstokenvalue0"
      (c3WitnessProfile.pop_v2_token 100).2 (by decide)⟩

/-- The rejection condition of the v3 push loop. -/
def pushRejects (p : ProfileStore) (t : PushToken) : Prop :=
  t.token = "" ∨ t.token.length < 20 ∨ t.age_ms > TOKEN_EXPIRY_MS ∨
    ∃ x ∈ p.v3_tokens, x.token = t.token

instance (p : ProfileStore) (t : PushToken) : Decidable (pushRejects p t) := by
  unfold pushRejects
  infer_instance

/-- An accepted token changes the store as the claim describes. -/
theorem pushOne_accepts {now : ℤ} {p : ProfileStore} {t : PushToken}
    (h : ¬ pushRejects p t) :
    (ProfileStore.pushOne now p t).v3_tokens =
      p.v3_tokens ++ [⟨t.token, t.action, now * 1000 - t.age_ms⟩] ∧
    (ProfileStore.pushOne now p t).total_tokens_received = p.total_tokens_received + 1 := by
  unfold pushRejects at h
  push_neg at h
  obtain ⟨h1, h2, h3, h4⟩ := h
  unfold ProfileStore.pushOne
  rw [if_neg (by simp [h1, h2]), if_neg (by simpa using h3),
      if_neg (by simpa using fun x hx => h4 x hx)]
  exact ⟨rfl, rfl⟩

/-- **C4 counterexample.**  The claim says a pushed token with
`ageMs = TTL` exactly is rejected.  The code uses a strict `>` check:
a fresh pool accepts a 20-character token with `age_ms = 110000`
(= `TOKEN_EXPIRY_MS`), the pool grows and `tokensReceived` becomes 1. -/
theorem c4_counterexample :
    (⟨"tokentokentokentoken", "chat_submit", (110000 : ℤ)⟩ : PushToken).age_ms =
      TOKEN_EXPIRY_MS ∧
    (ProfileStore.pushV3 0 {} [⟨"tokentokentokentoken", "chat_submit", 110000⟩]).v3_tokens.map
        TokenEntry.token = ["tokentokentokentoken"] ∧
    (ProfileStore.pushV3 0 {} [⟨"tokentokentokentoken", "chat_submit", 110000⟩]).total_tokens_received
        = 1 := by
  decide

/-- **C4** (amended).  A pushed v3 token is rejected (store unchanged)
exactly when it is empty, shorter than 20 characters, already present
by exact value, or has `age_ms` *strictly greater* than the TTL — the
boundary `age_ms = TTL` is accepted, unlike the claim.  An accepted
token is stored with `ts = now*1000 - age_ms` and increments
`tokensReceived`; after the full push the pool is sorted ascending by
mint time, holds at most `TOKEN_POOL_MAX` entries, and any entry
dropped by the truncation is at least as old as every kept entry. -/
theorem c4_push_validation (now : ℤ) (p : ProfileStore) (t : PushToken)
    (ts : List PushToken) :
    (ProfileStore.pushOne now p t = p ↔ pushRejects p t) ∧
    (¬ pushRejects p t →
      (ProfileStore.pushOne now p t).v3_tokens =
        p.v3_tokens ++ [⟨t.token, t.action, now * 1000 - t.age_ms⟩] ∧
      (ProfileStore.pushOne now p t).total_tokens_received = p.total_tokens_received + 1) ∧
    (¬ ts.isEmpty →
      (ProfileStore.pushV3 now p ts).v3_tokens.Pairwise (fun a b => a.ts ≤ b.ts) ∧
      (ProfileStore.pushV3 now p ts).v3_tokens.length ≤ TOKEN_POOL_MAX ∧
      (∀ x ∈ (ts.foldl (ProfileStore.pushOne now) p).v3_tokens,
        x ∉ (ProfileStore.pushV3 now p ts).v3_tokens →
        ∀ y ∈ (ProfileStore.pushV3 now p ts).v3_tokens, x.ts ≤ y.ts)) := by
  have htot : ∀ a b : TokenEntry, tsLe a b = false → tsLe b a = true := by
    intro a b h
    simp only [tsLe, decide_eq_false_iff_not, not_le] at h
    simpa [tsLe] using le_of_lt h
  have htrans : ∀ a b c : TokenEntry,
      tsLe a b = true → tsLe b c = true → tsLe a c = true := by
    intro a b c h1 h2
    simp only [tsLe, decide_eq_true_eq] at h1 h2
    simpa [tsLe] using le_trans h1 h2
  refine ⟨?_, pushOne_accepts, ?_⟩
  · constructor
    · intro heq
      by_contra hrej
      have := (@pushOne_accepts now p t hrej).2
      rw [heq] at this
      omega
    · intro hrej
      unfold ProfileStore.pushOne
      unfold pushRejects at hrej
      split
      · rfl
      · rename_i hc1
        split
        · rfl
        · rename_i hc2
          have hany : (p.v3_tokens.any (fun x => x.token = t.token)) = true := by
            rcases hrej with h | h | h | h
            · exact absurd (by simp [h]) hc1
            · exact absurd (by simp [h]) hc1
            · exact absurd h hc2
            · simpa [List.any_eq_true] using h
          rw [if_pos hany]
  · intro hne
    unfold ProfileStore.pushV3
    rw [if_neg (by simpa using hne)]
    set fold := ts.foldl (ProfileStore.pushOne now) p with hfold
    have hsorted : (isortLe tsLe fold.v3_tokens).Pairwise (fun a b => tsLe a b = true) :=
      isortLe_pairwise htot htrans _
    have hsorted' : (isortLe tsLe fold.v3_tokens).Pairwise (fun a b => a.ts ≤ b.ts) :=
      hsorted.imp (fun h => by simpa [tsLe] using h)
    refine ⟨?_, ?_, ?_⟩
    · exact hsorted'.sublist (List.drop_sublist _ _)
    · simp only [truncatePool, List.length_drop]
      omega
    · intro x hx hxdrop y hy
      have hxs : x ∈ isortLe tsLe fold.v3_tokens :=
        ((isortLe_perm tsLe fold.v3_tokens).mem_iff).2 hx
      set srt := isortLe tsLe fold.v3_tokens with hsrt
      set n := srt.length - TOKEN_POOL_MAX with hn
      have hsplit : srt.take n ++ srt.drop n = srt := List.take_append_drop n srt
      have hxtake : x ∈ srt.take n := by
        rcases List.mem_append.1 (hsplit ▸ hxs) with h | h
        · exact h
        · exact absurd h hxdrop
      have hpw : (srt.take n ++ srt.drop n).Pairwise (fun a b => a.ts ≤ b.ts) := by
        rw [hsplit]; exact hsorted'
      exact (List.pairwise_append.1 hpw).2.2 x hxtake y hy

/-- Fresh valid push token used by the C4 witness. -/
def c4WitnessToken : PushToken := { token := "witnesstokenvalue123", age_ms := 100 }

/-- Witness for `c4_push_validation` at an empty store, `now = 5`. -/
theorem c4_push_validation_witness :
    ((ProfileStore.pushOne 5 {} c4WitnessToken).v3_tokens =
        ({} : ProfileStore).v3_tokens ++
          [⟨c4WitnessToken.token, c4WitnessToken.action, 5 * 1000 - c4WitnessToken.age_ms⟩] ∧
      (ProfileStore.pushOne 5 {} c4WitnessToken).total_tokens_received =
        ({} : ProfileStore).total_tokens_received + 1) ∧
    ((ProfileStore.pushV3 5 {} [c4WitnessToken]).v3_tokens.Pairwise
        (fun a b => a.ts ≤ b.ts) ∧
      (ProfileStore.pushV3 5 {} [c4WitnessToken]).v3_tokens.length ≤ TOKEN_POOL_MAX ∧
      (∀ x ∈ ([c4WitnessToken].foldl (ProfileStore.pushOne 5) {}).v3_tokens,
        x ∉ (ProfileStore.pushV3 5 {} [c4WitnessToken]).v3_tokens →
        ∀ y ∈ (ProfileStore.pushV3 5 {} [c4WitnessToken]).v3_tokens, x.ts ≤ y.ts)) :=
  ⟨(c4_push_validation 5 {} c4WitnessToken [c4WitnessToken]).2.1 (by decide),
   (c4_push_validation 5 {} c4WitnessToken [c4WitnessToken]).2.2 (by decide)⟩

/-- If no profile is active, the candidate list is empty. -/
theorem candidatesOf_of_no_active {stores : List ProfileStore} {model_name : String}
    {now : ℤ} (h : stores.filter (fun s => s.activeAt now) = []) :
    candidatesOf stores model_name now = [] := by
  unfold candidatesOf
  rw [h]
  split
  · simp [isortLe]
  · simp [isortLe]

/-- A non-empty token-bearing list forces a non-empty active set. -/
theorem active_of_withTokens {stores : List ProfileStore} {model_name : String}
    {now : ℤ} (h : withTokensOf stores model_name now ≠ []) :
    (stores.filter (fun s => s.activeAt now)).isEmpty = false := by
  by_contra hempty
  have hnil : stores.filter (fun s => s.activeAt now) = [] :=
    List.isEmpty_iff.1 (by simpa using hempty)
  apply h
  unfold withTokensOf
  rw [candidatesOf_of_no_active hnil]
  rfl

/-- One invocation of `select_best_profile` when token-bearing
candidates exist: index and new cursor are both `(robin+1) mod k`. -/
theorem select_best_profile_step (stores : List ProfileStore) (model_name : String)
    (now : ℤ) (robin : Nat) (hwt : withTokensOf stores model_name now ≠ []) :
    select_best_profile stores robin model_name now =
      ((withTokensOf stores model_name now).get?
          ((robin + 1) % (withTokensOf stores model_name now).length),
        (robin + 1) % (withTokensOf stores model_name now).length) := by
  unfold select_best_profile
  rw [if_neg (by simp [active_of_withTokens hwt]),
      if_neg (by simpa using hwt)]
  show ((withTokensOf stores model_name now).get?
      ((robin + 1) % (withTokensOf stores model_name now).length %
        (withTokensOf stores model_name now).length),
    (robin + 1) % (withTokensOf stores model_name now).length) = _
  rw [Nat.mod_mod_of_dvd _ dvd_rfl]

/-- The selections of `k` consecutive invocations, in closed form. -/
theorem selectIter_formula (stores : List ProfileStore) (model_name : String)
    (now : ℤ) (hwt : withTokensOf stores model_name now ≠ []) :
    ∀ k c, (selectIter stores model_name now k c).1 =
      (List.range k).map (fun j => (withTokensOf stores model_name now).get?
        ((c + 1 + j) % (withTokensOf stores model_name now).length)) := by
  intro k
  induction k with
  | zero => intro c; simp [selectIter]
  | succ k ih =>
      intro c
      rw [selectIter, select_best_profile_step stores model_name now c hwt,
          List.range_succ_eq_map]
      simp only [List.map_cons, List.map_map]
      refine congrArg₂ _ (by rw [Nat.add_zero]) ?_
      rw [ih]
      refine List.map_congr_left ?_
      intro j hj
      simp only [Function.comp]
      congr 1
      rw [Nat.add_assoc _ 1 j, Nat.mod_add_mod]
      congr 1
      omega

/-- The closed form is a rotation of the token-bearing list. -/
theorem selections_eq_rotate {α : Type} (wt : List α) (hwt : wt ≠ []) (c : Nat) :
    (List.range wt.length).map (fun j => wt.get? ((c + 1 + j) % wt.length)) =
      (wt.rotate ((c + 1) % wt.length)).map some := by
  have hlen : 0 < wt.length := List.length_pos.2 hwt
  apply List.ext_get?
  intro n
  by_cases hn : n < wt.length
  · have hidx2 : (c + 1 + n) % wt.length < wt.length := Nat.mod_lt _ hlen
    rw [List.get?_map, List.get?_range hn, List.get?_map, List.get?_rotate hn,
        Nat.add_comm n ((c + 1) % wt.length), Nat.mod_add_mod]
    cases hx : wt.get? ((c + 1 + n) % wt.length) with
    | none =>
        have := List.get?_eq_none.1 hx
        omega
    | some a => simpa [List.get?_eq_getElem?] using hx
  · have h1 : ((List.range wt.length).map
        (fun j => wt.get? ((c + 1 + j) % wt.length))).get? n = none := by
      rw [List.get?_eq_none]
      simpa using Nat.le_of_not_lt hn
    have h2 : ((wt.rotate ((c + 1) % wt.length)).map some).get? n = none := by
      rw [List.get?_eq_none]
      simpa using Nat.le_of_not_lt hn
    rw [h1, h2]

/-- **C5 (confirmed).** With a fixed non-empty token-bearing candidate
list of length `k`, `k` consecutive selections return every profile of
the list exactly once (the selections are a permutation of the list),
and each call advances the shared cursor to `(cursor + 1) mod k`. -/
theorem c5_round_robin_visits_all (stores : List ProfileStore) (model_name : String)
    (now : ℤ) (c : Nat) (hwt : withTokensOf stores model_name now ≠ []) :
    ((selectIter stores model_name now (withTokensOf stores model_name now).length c).1).Perm
        ((withTokensOf stores model_name now).map some) ∧
    ∀ cur, (select_best_profile stores cur model_name now).2 =
        (cur + 1) % (withTokensOf stores model_name now).length := by
  constructor
  · rw [selectIter_formula stores model_name now hwt,
        selections_eq_rotate _ hwt c]
    exact (List.rotate_perm _ _).map some
  · intro cur
    rw [select_best_profile_step stores model_name now cur hwt]

/-- Active token-bearing profile used by the selection witnesses. -/
def selWitnessA : ProfileStore :=
  { profile_id := "selA", v3_tokens := [⟨"AAAAAAAAAAAAAAAAAAAA", "chat_submit", 0⟩],
    last_push := 1 }

/-- Second active token-bearing profile used by the selection witnesses. -/
def selWitnessB : ProfileStore :=
  { profile_id := "selB", v3_tokens := [⟨"BBBBBBBBBBBBBBBBBBBB", "chat_submit", 0⟩],
    last_push := 1 }

/-- Witness for `c5_round_robin_visits_all` over two profiles at `now = 1`. -/
theorem c5_round_robin_visits_all_witness :
    ((selectIter [selWitnessA, selWitnessB] "" 1
        (withTokensOf [selWitnessA, selWitnessB] "" 1).length 0).1).Perm
      ((withTokensOf [selWitnessA, selWitnessB] "" 1).map some) ∧
    (select_best_profile [selWitnessA, selWitnessB] 0 "" 1).2 =
      (0 + 1) % (withTokensOf [selWitnessA, selWitnessB] "" 1).length :=
  ⟨(c5_round_robin_visits_all [selWitnessA, selWitnessB] "" 1 0 (by decide)).1,
   (c5_round_robin_visits_all [selWitnessA, selWitnessB] "" 1 0 (by decide)).2 0⟩

/-- **C10 (confirmed).** For every cursor value and every non-empty
token-bearing candidate list, the selection index is reduced modulo the
list length before indexing, so the lookup is in range and the returned
profile is an element of the token-bearing candidate list. -/
theorem c10_selection_index_safe (stores : List ProfileStore) (robin : Nat)
    (model_name : String) (now : ℤ)
    (hwt : withTokensOf stores model_name now ≠ []) :
    (robin + 1) % (withTokensOf stores model_name now).length <
        (withTokensOf stores model_name now).length ∧
    ∃ p, (select_best_profile stores robin model_name now).1 = some p ∧
      p ∈ withTokensOf stores model_name now := by
  have hlen : 0 < (withTokensOf stores model_name now).length :=
    List.length_pos.2 hwt
  have hlt : (robin + 1) % (withTokensOf stores model_name now).length <
      (withTokensOf stores model_name now).length := Nat.mod_lt _ hlen
  refine ⟨hlt, ?_⟩
  rw [select_best_profile_step stores model_name now robin hwt]
  refine ⟨(withTokensOf stores model_name now).get
      ⟨(robin + 1) % (withTokensOf stores model_name now).length, hlt⟩, ?_, ?_⟩
  · simp [List.get?_eq_getElem?, List.getElem?_eq_getElem hlt]
  · exact List.get_mem _ _ hlt

/-- Witness for `c10_selection_index_safe` with a deliberately stale
cursor (`robin = 17`, list length 2). -/
theorem c10_selection_index_safe_witness :
    (17 + 1) % (withTokensOf [selWitnessA, selWitnessB] "" 1).length <
        (withTokensOf [selWitnessA, selWitnessB] "" 1).length ∧
    ∃ p, (select_best_profile [selWitnessA, selWitnessB] 17 "" 1).1 = some p ∧
      p ∈ withTokensOf [selWitnessA, selWitnessB] "" 1 :=
  c10_selection_index_safe [selWitnessA, selWitnessB] 17 "" 1 (by decide)

/-- The health-score formula exactly as claim C6 words it, with
"catalog non-empty" covering both the text and the image catalog. -/
def healthScoreClaimC6 (p : ProfileStore) (now : ℤ) : ℤ :=
  if !p.activeAt now then 0
  else
    min
      (min ((p.token_count now : ℤ) * 15) 45
        + (if p.auth_token != "" then 20 else 0)
        + (if p.cf_clearance != "" then 10 else 0)
        + (if !p.text_models.isEmpty || !p.image_models.isEmpty then 10 else 0)
        + (if now - p.last_push < 30 then 15
           else if now - p.last_push < 60 then 10
           else if now - p.last_push < 90 then 5 else 0))
      100

/-- The claim's formula amended to what the code computes: the
10-point catalog bonus looks only at the *text* catalog. -/
def healthScoreAmendedC6 (p : ProfileStore) (now : ℤ) : ℤ :=
  if !p.activeAt now then 0
  else
    min
      (min ((p.token_count now : ℤ) * 15) 45
        + (if p.auth_token != "" then 20 else 0)
        + (if p.cf_clearance != "" then 10 else 0)
        + (if !p.text_models.isEmpty then 10 else 0)
        + (if now - p.last_push < 30 then 15
           else if now - p.last_push < 60 then 10
           else if now - p.last_push < 90 then 5 else 0))
      100

/-- Profile refuting C6: active, no tokens, no credentials, an empty
text catalog but a non-empty image catalog, last push 99 s ago. -/
def c6Profile : ProfileStore :=
  { profile_id := "c6", image_models := [("img-model", "img-id")], last_push := 1 }

/-- **C6 counterexample.**  The claim awards 10 points when "the
catalog" (text or image) is non-empty; the code checks only
`text_models`.  An active profile whose catalog holds only an image
model scores 0, while the claim's formula gives it 10. -/
theorem c6_counterexample :
    ProfileStore.health_score c6Profile 100 ≠ healthScoreClaimC6 c6Profile 100 ∧
    ProfileStore.health_score c6Profile 100 = 0 ∧
    healthScoreClaimC6 c6Profile 100 = 10 := by
  refine ⟨?_, ?_, ?_⟩ <;> decide

/-- **C6** (amended).  `health_score` equals the claim's formula with
the catalog bonus restricted to the text catalog; an inactive profile
scores 0; an active profile with at least 3 valid tokens, an auth
token, a clearance token, a non-empty text catalog, and a push less
than 30 s old scores exactly 100. -/
theorem c6_health_score_formula (p : ProfileStore) (now : ℤ) :
    p.health_score now = healthScoreAmendedC6 p now ∧
    (¬ p.activeAt now = true → p.health_score now = 0) ∧
    (p.activeAt now = true → 3 ≤ p.token_count now → p.auth_token ≠ "" →
      p.cf_clearance ≠ "" → p.text_models ≠ [] → now - p.last_push < 30 →
      p.health_score now = 100) := by
  refine ⟨rfl, ?_, ?_⟩
  · intro h
    simp [ProfileStore.health_score, h]
  · intro hact htc hauth hcf htext hage
    have h45 : min ((p.token_count now : ℤ) * 15) 45 = 45 := by
      apply min_eq_right
      have : (3 : ℤ) ≤ (p.token_count now : ℤ) := by exact_mod_cast htc
      nlinarith
    unfold ProfileStore.health_score
    rw [if_neg (by simp [hact])]
    simp only [h45, if_pos hage]
    rw [if_pos (by simpa using hauth), if_pos (by simpa using hcf),
        if_pos (by simpa [List.isEmpty_iff] using htext)]
    decide

/-- Fully-equipped just-pushed profile for the C6 witness. -/
def c6FullProfile : ProfileStore :=
  { profile_id := "c6full", auth_token := "auth", cf_clearance := "cf",
    text_models := [("gpt-x", "id-1")],
    v3_tokens := [⟨"AAAAAAAAAAAAAAAAAAAA", "a", 0⟩, ⟨"BBBBBBBBBBBBBBBBBBBB", "a", 0⟩,
                  ⟨"CCCCCCCCCCCCCCCCCCCC", "a", 0⟩],
    last_push := 95 }

/-- Witness for `c6_health_score_formula`: the inactive case at the
never-pushed default profile and the 100-point case at
`c6FullProfile`, `now = 100`. -/
theorem c6_health_score_formula_witness :
    ProfileStore.health_score {} 100 = 0 ∧
    ProfileStore.health_score c6FullProfile 100 = 100 :=
  ⟨(c6_health_score_formula {} 100).2.1 (by decide),
   (c6_health_score_formula c6FullProfile 100).2.2 (by decide) (by decide) (by decide)
     (by decide) (by decide) (by decide)⟩

/-- `pop_v3_token` on a pool with a valid front entry. -/
theorem pop_v3_token_cons {p : ProfileStore} {now : ℤ} {t : TokenEntry}
    {rest : List TokenEntry} (h : p.validV3 now = t :: rest) :
    p.pop_v3_token now = (some t.token,
      { p with v3_tokens := rest, consecutive_empty := 0,
               total_tokens_served := p.total_tokens_served + 1 }) := by
  unfold ProfileStore.pop_v3_token
  split
  · rename_i heq
    rw [h] at heq
    exact absurd heq (by simp)
  · rename_i t' rest' heq
    rw [h] at heq
    injection heq with h1 h2
    subst h1
    subst h2
    rfl

/-- `pop_v3_token` on a pool with no valid entry. -/
theorem pop_v3_token_nil {p : ProfileStore} {now : ℤ} (h : p.validV3 now = []) :
    p.pop_v3_token now = (none,
      { p with v3_tokens := [], consecutive_empty := p.consecutive_empty + 1 }) := by
  unfold ProfileStore.pop_v3_token
  split
  · rfl
  · rename_i t' rest' heq
    rw [h] at heq
    exact absurd heq (by simp)

/-- The token-borrowing loop of `chat_completions`: scan the active
profiles in registry order, skip the selected profile's id, pop each
scanned donor's v3 pool and stop at the first truthy token.  The Python
loop variable keeps the last popped value, so the final value is
carried in `acc`; the updated donor list is returned alongside. -/
def borrowV3 (selId : String) (now : ℤ) :
    List ProfileStore → Option String → Option String × List ProfileStore
  | [], acc => (acc, [])
  | o :: rest, acc =>
      if o.profile_id = selId then
        let r := borrowV3 selId now rest acc
        (r.1, o :: r.2)
      else
        let pop := o.pop_v3_token now
        if optTruthy pop.1 then (pop.1, pop.2 :: rest)
        else
          let r := borrowV3 selId now rest pop.1
          (r.1, pop.2 :: r.2)

/-- Lines 718–729 of `chat_completions`: pop the selected profile's v3
token; only if that is falsy pop its v2 token; only if both are falsy
run the borrowing loop over the active profiles.  Returns
`(v3_token, v2_token, selected afterwards, actives afterwards)`. -/
def acquireTokens (selected : ProfileStore) (actives : List ProfileStore) (now : ℤ) :
    Option String × Option String × ProfileStore × List ProfileStore :=
  let p3 := selected.pop_v3_token now
  let v3 := p3.1
  let s1 := p3.2
  let p2 := if !optTruthy v3 then s1.pop_v2_token now else (none, s1)
  let v2 := p2.1
  let s2 := p2.2
  if !optTruthy v3 && !optTruthy v2 then
    let b := borrowV3 selected.profile_id now actives v3
    (b.1, v2, s2, b.2)
  else (v3, v2, s2, actives)

/-- The challenge-token fields of the outbound arena payload
(lines 762–768).  First component: `recaptchaV2Token`; second:
`recaptchaV3Token`.  `none` = key absent, `some .jnull` = explicit
JSON null. -/
def payloadTokenFields (v3tok v2tok : Option String) : Option JVal × Option JVal :=
  if optTruthy v2tok then (some (.jstr (v2tok.getD "")), some .jnull)
  else if optTruthy v3tok then (none, some (.jstr (v3tok.getD "")))
  else (none, none)

/-- A payload field is populated when it is present and non-null. -/
def fieldPopulated : Option JVal → Bool
  | none => false
  | some .jnull => false
  | some _ => true

/-- If no other active profile holds a valid v3 token, the borrow loop
started with a falsy accumulator yields a falsy token. -/
theorem borrowV3_all_empty {selId : String} {now : ℤ} :
    ∀ (actives : List ProfileStore) (acc : Option String),
    (∀ o ∈ actives, o.profile_id ≠ selId → o.validV3 now = []) →
    optTruthy acc = false →
    optTruthy (borrowV3 selId now actives acc).1 = false := by
  intro actives
  induction actives with
  | nil => intro acc _ hacc; simpa [borrowV3] using hacc
  | cons o rest ih =>
      intro acc hdon hacc
      unfold borrowV3
      by_cases hid : o.profile_id = selId
      · rw [if_pos hid]
        exact ih acc (fun q hq => hdon q (List.mem_cons_of_mem _ hq)) hacc
      · rw [if_neg hid]
        have hpop := pop_v3_token_nil (hdon o (List.mem_cons_self o rest) hid)
        rw [hpop]
        simp only [optTruthy]
        exact ih none (fun q hq => hdon q (List.mem_cons_of_mem _ hq)) rfl

/-- Profile holding both a valid v3 token and a valid v2 token. -/
def c2Profile : ProfileStore :=
  { profile_id := "c2", v3_tokens := [⟨"v3candidatetokenval1", "chat_submit", 0⟩],
    v2_token := some ⟨"v2candidatetokenval1", 0⟩, last_push := 1 }

/-- **C2 counterexample.**  The claim says the V2 token wins when both
kinds are valid.  At `now = 1`, `c2Profile` holds a valid v3 and a
valid v2 token, yet the code consumes and sends the *V3* token: the
`recaptchaV2Token` key is absent, `recaptchaV3Token` carries the v3
value, and the v2 slot is left untouched. -/
theorem c2_counterexample :
    c2Profile.token_count 1 = 1 ∧
    (∃ v2, c2Profile.v2_token = some v2 ∧ ¬ 1 - v2.ts > TOKEN_EXPIRY_MS / 1000) ∧
    (acquireTokens c2Profile [c2Profile] 1).1 = some "v3candidatetokenval1" ∧
    (acquireTokens c2Profile [c2Profile] 1).2.1 = none ∧
    (acquireTokens c2Profile [c2Profile] 1).2.2.1.v2_token = c2Profile.v2_token ∧
    (payloadTokenFields (acquireTokens c2Profile [c2Profile] 1).1
        (acquireTokens c2Profile [c2Profile] 1).2.1).1 = none ∧
    (payloadTokenFields (acquireTokens c2Profile [c2Profile] 1).1
        (acquireTokens c2Profile [c2Profile] 1).2.1).2 =
      some (.jstr "v3candidatetokenval1") :=
  ⟨by decide, ⟨⟨"v2candidatetokenval1", 0⟩, by decide, by decide⟩,
   by decide, by decide, by decide, rfl, rfl⟩

/-- `pop_v2_token` yields a falsy token when the slot is empty, the
entry has an empty value, or the entry is strictly over the TTL. -/
theorem pop_v2_token_falsy {p : ProfileStore} {now : ℤ}
    (h : ∀ v2, p.v2_token = some v2 →
      v2.token = "" ∨ now - v2.ts > TOKEN_EXPIRY_MS / 1000) :
    optTruthy (p.pop_v2_token now).1 = false := by
  unfold ProfileStore.pop_v2_token
  split
  · rfl
  · rename_i v2 hveq
    rcases h v2 hveq with hempty | hexp
    · split
      · rfl
      · simp [optTruthy, hempty]
    · rw [if_pos hexp]
      rfl

/-- With two falsy tokens both payload fields are omitted. -/
theorem payloadTokenFields_falsy {v3tok v2tok : Option String}
    (h3 : optTruthy v3tok = false) (h2 : optTruthy v2tok = false) :
    payloadTokenFields v3tok v2tok = (none, none) := by
  unfold payloadTokenFields
  rw [if_neg (by simp [h2]), if_neg (by simp [h3])]

/-- **C2** (amended).  The outbound payload populates at most one
challenge-token field; when the selected profile holds a valid
(non-empty) v3 token, the *V3* token — not the V2 one, as the claim
says — is consumed and sent while the v2 slot stays untouched; when
the selected profile and every other active profile hold no valid
token of either kind, both fields are omitted. -/
theorem c2_challenge_token_fields (selected : ProfileStore)
    (actives : List ProfileStore) (now : ℤ) :
    (∀ v3tok v2tok : Option String,
      ¬(fieldPopulated (payloadTokenFields v3tok v2tok).1 = true ∧
        fieldPopulated (payloadTokenFields v3tok v2tok).2 = true)) ∧
    (∀ t rest, selected.validV3 now = t :: rest → t.token ≠ "" →
      (acquireTokens selected actives now).1 = some t.token ∧
      (acquireTokens selected actives now).2.1 = none ∧
      (acquireTokens selected actives now).2.2.1.v2_token = selected.v2_token ∧
      payloadTokenFields (acquireTokens selected actives now).1
          (acquireTokens selected actives now).2.1 =
        (none, some (.jstr t.token))) ∧
    (selected.validV3 now = [] →
      (∀ v2, selected.v2_token = some v2 →
        v2.token = "" ∨ now - v2.ts > TOKEN_EXPIRY_MS / 1000) →
      (∀ o ∈ actives, o.profile_id ≠ selected.profile_id → o.validV3 now = []) →
      payloadTokenFields (acquireTokens selected actives now).1
          (acquireTokens selected actives now).2.1 = (none, none)) := by
  refine ⟨?_, ?_, ?_⟩
  · intro v3tok v2tok
    unfold payloadTokenFields
    by_cases h2 : optTruthy v2tok = true
    · rw [if_pos h2]
      rintro ⟨-, hpop⟩
      simp [fieldPopulated] at hpop
    · rw [if_neg h2]
      by_cases h3 : optTruthy v3tok = true
      · rw [if_pos h3]
        rintro ⟨hpop, -⟩
        simp [fieldPopulated] at hpop
      · rw [if_neg h3]
        rintro ⟨hpop, -⟩
        simp [fieldPopulated] at hpop
  · intro t rest hv ht
    have hpop := pop_v3_token_cons hv
    have htr : optTruthy (some t.token) = true := by simp [optTruthy, ht]
    unfold acquireTokens
    rw [hpop]
    simp only [htr, Bool.not_true, Bool.false_and, Bool.false_eq_true, if_false]
    refine ⟨trivial, trivial, trivial, ?_⟩
    unfold payloadTokenFields
    rw [if_neg (by simp [optTruthy]), if_pos htr]
    rfl
  · intro hv hv2 hdon
    have hpop := pop_v3_token_nil hv
    have hfalsy : optTruthy ((selected.pop_v3_token now).2.pop_v2_token now).1 = false := by
      apply pop_v2_token_falsy
      intro v2 hv2eq
      apply hv2
      rw [hpop] at hv2eq
      exact hv2eq
    have h3 : optTruthy (selected.pop_v3_token now).1 = false := by
      rw [hpop]
      rfl
    have hborrow : optTruthy
        (borrowV3 selected.profile_id now actives (selected.pop_v3_token now).1).1 = false := by
      rw [hpop]
      exact borrowV3_all_empty actives none hdon rfl
    unfold acquireTokens
    simp only [h3, hfalsy, Bool.not_false, Bool.and_self, if_true]
    exact payloadTokenFields_falsy hborrow hfalsy

/-- Witness for `c2_challenge_token_fields`: exclusivity at a sample
pair, V3 precedence at `c2Profile`, and omission at the empty store. -/
theorem c2_challenge_token_fields_witness :
    ¬(fieldPopulated (payloadTokenFields (some "v3abcabcabcabcabcabc") none).1 = true ∧
      fieldPopulated (payloadTokenFields (some "v3abcabcabcabcabcabc") none).2 = true) ∧
    ((acquireTokens c2Profile [] 1).1 = some "v3candidatetokenval1" ∧
     (acquireTokens c2Profile [] 1).2.1 = none ∧
     (acquireTokens c2Profile [] 1).2.2.1.v2_token = c2Profile.v2_token ∧
     payloadTokenFields (acquireTokens c2Profile [] 1).1 (acquireTokens c2Profile [] 1).2.1 =
       (none, some (.jstr "v3candidatetokenval1"))) ∧
    payloadTokenFields (acquireTokens ({} : ProfileStore) [] 1).1
        (acquireTokens ({} : ProfileStore) [] 1).2.1 = (none, none) :=
  ⟨(c2_challenge_token_fields c2Profile [] 1).1 (some "v3abcabcabcabcabcabc") none,
   (c2_challenge_token_fields c2Profile [] 1).2.1 ⟨"v3candidatetokenval1", "chat_submit", 0⟩ []
     (by decide) (by decide),
   (c2_challenge_token_fields {} [] 1).2.2 (by decide) (fun v2 h => by simp at h)
     (fun o ho => absurd ho (List.not_mem_nil o))⟩

/-- A payload token whose value is already pooled leaves the store
unchanged (the duplicate is dropped before any counter increment). -/
theorem pushOne_of_dup {now : ℤ} {p : ProfileStore} {t : PushToken}
    (h : ∃ x ∈ p.v3_tokens, x.token = t.token) :
    ProfileStore.pushOne now p t = p := by
  unfold ProfileStore.pushOne
  split
  · rfl
  · split
    · rfl
    · rw [if_pos (by simpa [List.any_eq_true] using h)]

/-- An invalid payload token leaves the store unchanged. -/
theorem pushOne_of_invalid {now : ℤ} {p : ProfileStore} {t : PushToken}
    (h : t.token = "" ∨ t.token.length < 20 ∨ t.age_ms > TOKEN_EXPIRY_MS) :
    ProfileStore.pushOne now p t = p := by
  unfold ProfileStore.pushOne
  rcases h with h | h | h
  · rw [if_pos (by simp [h])]
  · rw [if_pos (by simp [h])]
  · split
    · rfl
    · simp [h]

/-- The pool only grows during the push loop. -/
theorem pushOne_pool_mono {now : ℤ} {p : ProfileStore} {t : PushToken}
    {x : TokenEntry} (h : x ∈ p.v3_tokens) :
    x ∈ (ProfileStore.pushOne now p t).v3_tokens := by
  rcases pushOne_self_or_append now p t with heq | happ
  · rw [heq]; exact h
  · rw [happ]; exact List.mem_append_left _ h

/-- Pool monotonicity through the whole loop. -/
theorem foldl_pushOne_pool_mono {now : ℤ} (ts : List PushToken) :
    ∀ (p : ProfileStore) (x : TokenEntry), x ∈ p.v3_tokens →
      x ∈ (ts.foldl (ProfileStore.pushOne now) p).v3_tokens := by
  induction ts with
  | nil => intro p x h; exact h
  | cons t rest ih => intro p x h; exact ih _ x (pushOne_pool_mono h)

/-- After the loop, every valid pushed token value is in the pool. -/
theorem foldl_pushOne_covers {now : ℤ} (ts : List PushToken) :
    ∀ (p : ProfileStore) (t : PushToken), t ∈ ts →
    ¬(t.token = "" ∨ t.token.length < 20 ∨ t.age_ms > TOKEN_EXPIRY_MS) →
    ∃ x ∈ (ts.foldl (ProfileStore.pushOne now) p).v3_tokens, x.token = t.token := by
  induction ts with
  | nil => intro p t h; exact absurd h (List.not_mem_nil t)
  | cons u rest ih =>
      intro p t hmem hvalid
      rcases List.mem_cons.1 hmem with h1 | hmem
      · subst h1
        by_cases hdup : ∃ x ∈ p.v3_tokens, x.token = t.token
        · obtain ⟨x, hx, hxt⟩ := hdup
          exact ⟨x, foldl_pushOne_pool_mono rest _ x (pushOne_pool_mono hx), hxt⟩
        · have hrej : ¬ pushRejects p t := by
            unfold pushRejects
            intro hr
            rcases hr with h | h | h | h
            · exact hvalid (Or.inl h)
            · exact hvalid (Or.inr (Or.inl h))
            · exact hvalid (Or.inr (Or.inr h))
            · exact hdup h
          have hacc := @pushOne_accepts now p t hrej
          refine ⟨⟨t.token, t.action, now * 1000 - t.age_ms⟩, ?_, rfl⟩
          rw [List.foldl_cons]
          apply foldl_pushOne_pool_mono rest
          rw [hacc.1]
          exact List.mem_append_right _ (by simp)
      · exact ih _ t hmem hvalid

/-- A loop whose every payload token is invalid or already pooled is
the identity. -/
theorem foldl_pushOne_absorbed {now2 : ℤ} (ts : List PushToken) :
    ∀ (q : ProfileStore),
    (∀ t ∈ ts, (t.token = "" ∨ t.token.length < 20 ∨ t.age_ms > TOKEN_EXPIRY_MS) ∨
      ∃ x ∈ q.v3_tokens, x.token = t.token) →
    ts.foldl (ProfileStore.pushOne now2) q = q := by
  induction ts with
  | nil => intro q h; rfl
  | cons t rest ih =>
      intro q h
      have h1 : ProfileStore.pushOne now2 q t = q := by
        rcases h t (List.mem_cons_self t rest) with hinv | hdup
        · exact pushOne_of_invalid hinv
        · exact pushOne_of_dup hdup
      rw [List.foldl_cons, h1]
      exact ih q (fun u hu => h u (List.mem_cons_of_mem t hu))

/-- One loop iteration preserves distinctness of pooled token values. -/
theorem pushOne_nodup {now : ℤ} {p : ProfileStore} {t : PushToken}
    (h : (p.v3_tokens.map TokenEntry.token).Nodup) :
    ((ProfileStore.pushOne now p t).v3_tokens.map TokenEntry.token).Nodup := by
  unfold ProfileStore.pushOne
  split
  · exact h
  · split
    · exact h
    · split
      · exact h
      · rename_i hnotany
        simp only [List.map_append, List.map_cons, List.map_nil]
        rw [List.nodup_append]
        refine ⟨h, List.nodup_singleton _, ?_⟩
        intro a ha hb
        simp only [List.mem_singleton] at hb
        subst hb
        obtain ⟨x, hx, hxt⟩ := List.mem_map.1 ha
        exact hnotany (by simpa [List.any_eq_true] using ⟨x, hx, hxt⟩)

/-- The whole loop preserves distinctness of pooled token values. -/
theorem foldl_pushOne_nodup {now : ℤ} (ts : List PushToken) :
    ∀ (p : ProfileStore), (p.v3_tokens.map TokenEntry.token).Nodup →
    (((ts.foldl (ProfileStore.pushOne now) p).v3_tokens).map TokenEntry.token).Nodup := by
  induction ts with
  | nil => intro p h; exact h
  | cons t rest ih => intro p h; exact ih _ (pushOne_nodup h)

/-- **C8 counterexample.** The claim promises set-idempotence for every
profile state and payload.  Pushing the same 31-token payload twice
into an empty profile (capacity 30) disagrees with pushing it once: the
first push truncates away the first token, the second push re-inserts
it and truncates away a different one, so the value
`"tokenvaluepadding101"` is pooled after one push but gone after two. -/
def c8PushTokens : List PushToken :=
  (List.range 31).map (fun i => { token := "tokenvaluepadding" ++ toString (100 + i), age_ms := 0 })

set_option maxRecDepth 1000000 in
/-- **C8 counterexample** (see `c8PushTokens`): the pooled value sets
after one and after two identical pushes differ. -/
theorem c8_counterexample :
    "tokenvaluepadding101" ∈
      ((ProfileStore.pushV3 0 {} c8PushTokens).v3_tokens.map TokenEntry.token) ∧
    "tokenvaluepadding101" ∉
      ((ProfileStore.pushV3 0 (ProfileStore.pushV3 0 {} c8PushTokens)
          c8PushTokens).v3_tokens.map TokenEntry.token) := by
  constructor
  · decide
  · decide

/-- **C8** (amended).  A token value already pooled is never inserted
again and never re-counted; push keeps the pooled values distinct; and
repeating an identical push is the exact identity *provided the first
push did not overflow the pool* — when the capacity truncation drops a
pushed token, a repeated push can re-insert it and evict a different
token (see the counterexample). -/
theorem c8_push_idempotent :
    (∀ (now : ℤ) (p : ProfileStore) (t : PushToken),
      (∃ x ∈ p.v3_tokens, x.token = t.token) → ProfileStore.pushOne now p t = p) ∧
    (∀ (now : ℤ) (p : ProfileStore) (ts : List PushToken),
      (p.v3_tokens.map TokenEntry.token).Nodup →
      ((ProfileStore.pushV3 now p ts).v3_tokens.map TokenEntry.token).Nodup) ∧
    (∀ (now now2 : ℤ) (p : ProfileStore) (ts : List PushToken),
      (ts.foldl (ProfileStore.pushOne now) p).v3_tokens.length ≤ TOKEN_POOL_MAX →
      ProfileStore.pushV3 now2 (ProfileStore.pushV3 now p ts) ts =
        ProfileStore.pushV3 now p ts) := by
  have htot : ∀ a b : TokenEntry, tsLe a b = false → tsLe b a = true := by
    intro a b h
    simp only [tsLe, decide_eq_false_iff_not, not_le] at h
    simpa [tsLe] using le_of_lt h
  have htrans : ∀ a b c : TokenEntry,
      tsLe a b = true → tsLe b c = true → tsLe a c = true := by
    intro a b c h1 h2
    simp only [tsLe, decide_eq_true_eq] at h1 h2
    simpa [tsLe] using le_trans h1 h2
  refine ⟨fun now p t h => pushOne_of_dup h, ?_, ?_⟩
  · intro now p ts h
    unfold ProfileStore.pushV3
    split
    · exact h
    · have hfold := @foldl_pushOne_nodup now ts p h
      have hsort : (((isortLe tsLe (ts.foldl (ProfileStore.pushOne now) p).v3_tokens)).map
          TokenEntry.token).Nodup :=
        (((isortLe_perm tsLe _).map TokenEntry.token).nodup_iff).2 hfold
      exact hsort.sublist ((List.drop_sublist _ _).map TokenEntry.token)
  · intro now now2 p ts hlen
    by_cases hts : ts.isEmpty
    · unfold ProfileStore.pushV3
      rw [if_pos hts, if_pos hts]
    · have htr : truncatePool (isortLe tsLe (ts.foldl (ProfileStore.pushOne now) p).v3_tokens) =
          isortLe tsLe (ts.foldl (ProfileStore.pushOne now) p).v3_tokens := by
        unfold truncatePool
        rw [(isortLe_perm tsLe _).length_eq]
        have h0 : (ts.foldl (ProfileStore.pushOne now) p).v3_tokens.length - TOKEN_POOL_MAX
            = 0 := by omega
        rw [h0, List.drop_zero]
      have hfirst : ProfileStore.pushV3 now p ts =
          { ts.foldl (ProfileStore.pushOne now) p with
            v3_tokens := isortLe tsLe (ts.foldl (ProfileStore.pushOne now) p).v3_tokens } := by
        unfold ProfileStore.pushV3
        rw [if_neg (by simpa using hts), htr]
      rw [hfirst]
      have habs : ts.foldl (ProfileStore.pushOne now2)
          { ts.foldl (ProfileStore.pushOne now) p with
            v3_tokens := isortLe tsLe (ts.foldl (ProfileStore.pushOne now) p).v3_tokens } =
          { ts.foldl (ProfileStore.pushOne now) p with
            v3_tokens := isortLe tsLe (ts.foldl (ProfileStore.pushOne now) p).v3_tokens } := by
        apply foldl_pushOne_absorbed
        intro t hmem
        by_cases hv : t.token = "" ∨ t.token.length < 20 ∨ t.age_ms > TOKEN_EXPIRY_MS
        · exact Or.inl hv
        · refine Or.inr ?_
          obtain ⟨x, hx, hxt⟩ := @foldl_pushOne_covers now ts p t hmem hv
          exact ⟨x, (isortLe_perm tsLe _).mem_iff.2 hx, hxt⟩
      unfold ProfileStore.pushV3
      rw [if_neg (by simpa using hts), habs]
      have hsorted1 : (isortLe tsLe (ts.foldl (ProfileStore.pushOne now) p).v3_tokens).Pairwise
          (fun a b => tsLe a b = true) := isortLe_pairwise htot htrans _
      show ({ ts.foldl (ProfileStore.pushOne now) p with
          v3_tokens := truncatePool (isortLe tsLe
            (isortLe tsLe (ts.foldl (ProfileStore.pushOne now) p).v3_tokens)) } : ProfileStore) = _
      rw [isortLe_of_pairwise hsorted1, htr]

/-- Profile and payload for the C8 witness: the pushed value is already
pooled. -/
def c8WitnessProfile : ProfileStore :=
  { profile_id := "w8", v3_tokens := [⟨"AAAAAAAAAAAAAAAAAAAA", "chat_submit", 0⟩] }

/-- Witness for `c8_push_idempotent` at `c8WitnessProfile`: the
duplicate push is dropped, values stay distinct, and the repeated
(non-overflowing) push is the identity. -/
theorem c8_push_idempotent_witness :
    ProfileStore.pushOne 7 c8WitnessProfile
        { token := "AAAAAAAAAAAAAAAAAAAA", age_ms := 0 } = c8WitnessProfile ∧
    ((ProfileStore.pushV3 7 c8WitnessProfile
        [{ token := "AAAAAAAAAAAAAAAAAAAA", age_ms := 0 }]).v3_tokens.map
          TokenEntry.token).Nodup ∧
    ProfileStore.pushV3 9
        (ProfileStore.pushV3 7 c8WitnessProfile
          [{ token := "AAAAAAAAAAAAAAAAAAAA", age_ms := 0 }])
        [{ token := "AAAAAAAAAAAAAAAAAAAA", age_ms := 0 }] =
      ProfileStore.pushV3 7 c8WitnessProfile
        [{ token := "AAAAAAAAAAAAAAAAAAAA", age_ms := 0 }] :=
  ⟨c8_push_idempotent.1 7 c8WitnessProfile _
      ⟨⟨"AAAAAAAAAAAAAAAAAAAA", "chat_submit", 0⟩, by decide, by decide⟩,
   c8_push_idempotent.2.1 7 c8WitnessProfile _ (by decide),
   c8_push_idempotent.2.2 7 9 c8WitnessProfile _ (by decide)⟩

/-- A key that fails the membership test has no binding. -/
theorem dictGet_eq_none {d : List (String × String)} {k : String}
    (h : dictHas d k = false) : dictGet d k = none := by
  unfold dictGet
  rw [List.find?_eq_none.2]
  · rfl
  · intro x hx hpx
    unfold dictHas at h
    rw [List.any_eq_false] at h
    exact h x hx hpx

/-- Every string contains the empty string. -/
theorem strContains_empty (s : String) : strContains s "" = true := by
  unfold strContains
  rw [if_pos rfl]

/-- **C9 (confirmed).**  With a non-empty merged catalog whose keys do
not include the empty string itself, resolving model `""` succeeds via
the fuzzy scan and returns the *first* entry of the merged
text-plus-image dict; more generally, whenever some catalog name
contains the lowercased requested model name as a substring, resolution
never comes back empty (no `ModelNotFound`). -/
theorem c9_empty_model_resolves (stores : List ProfileStore) (now : ℤ) :
    (∀ nm mid rest,
      dictUpdate (get_all_models stores now).1 (get_all_models stores now).2 =
        (nm, mid) :: rest →
      dictHas (get_all_models stores now).1 "" = false →
      dictHas (get_all_models stores now).2 "" = false →
      resolve_model stores now "" =
        (some mid, nm, dictHas (get_all_models stores now).2 nm)) ∧
    (∀ model_name,
      (∃ e ∈ dictUpdate (get_all_models stores now).1 (get_all_models stores now).2,
        strContains (pyLower e.1) (pyLower model_name) = true) →
      (resolve_model stores now model_name).1 ≠ none) := by
  constructor
  · intro nm mid rest hcomb h1 h2
    unfold resolve_model
    simp only [dictGet_eq_none h1, dictGet_eq_none h2, hcomb]
    rw [List.find?_cons_of_pos _ (by
      simp only [Bool.or_eq_true]
      exact Or.inl (strContains_empty _))]
  · intro model_name hex
    unfold resolve_model
    cases hget1 : dictGet (get_all_models stores now).1 model_name with
    | some mid => simp [hget1]
    | none =>
        cases hget2 : dictGet (get_all_models stores now).2 model_name with
        | some mid => simp [hget1, hget2]
        | none =>
            simp only [hget1, hget2]
            obtain ⟨e, hmem, hsub⟩ := hex
            cases hfind : (dictUpdate (get_all_models stores now).1
                (get_all_models stores now).2).find? (fun nm =>
                  strContains (pyLower nm.1) (pyLower model_name) ||
                  strContains (pyLower model_name) (pyLower nm.1)) with
            | some nmv => simp [hfind]
            | none =>
                rw [List.find?_eq_none] at hfind
                exact absurd (by simp [hsub] : _ = true) (hfind e hmem)

/-- Active profile with a mixed catalog, for the C9 witness. -/
def c9Profile : ProfileStore :=
  { profile_id := "c9", last_push := 1,
    text_models := [("gpt-x", "id-1"), ("claude-y", "id-2")],
    image_models := [("img-z", "id-3")] }

/-- Witness for `c9_empty_model_resolves`: model `""` resolves to the
first merged entry `gpt-x`, and the substring request `"GPT"` also
resolves. -/
theorem c9_empty_model_resolves_witness :
    resolve_model [c9Profile] 1 "" =
      (some "id-1", "gpt-x", dictHas (get_all_models [c9Profile] 1).2 "gpt-x") ∧
    (resolve_model [c9Profile] 1 "GPT").1 ≠ none :=
  ⟨(c9_empty_model_resolves [c9Profile] 1).1 "gpt-x" "id-1"
      [("claude-y", "id-2"), ("img-z", "id-3")] (by decide) (by decide) (by decide),
   (c9_empty_model_resolves [c9Profile] 1).2 "GPT"
      ⟨("gpt-x", "id-1"), by decide, by decide⟩⟩

/-- `d.get(k, default)` on a decoded JSON object. -/
def jgetD (fs : List (String × JVal)) (k : String) (d : JVal) : JVal :=
  match fs.find? (fun kv => kv.1 = k) with
  | some kv => kv.2
  | none => d

/-- Python `a or b` on decoded JSON values. -/
def pyOr (a b : JVal) : JVal := if pyTruthy a then a else b

/-- The per-item branch of the list case of `extract_message_text`. -/
def itemParts : JVal → List String
  | .jstr s => if pyStrip s = "" then [] else [pyStrip s]
  | .jobj fs =>
      match jget fs "type" with
      | .jstr ty =>
          if ty = "text" ∨ ty = "input_text" ∨ ty = "output_text" then
            match jgetD fs "text" (.jstr "") with
            | .jstr t => if pyStrip t = "" then [] else [pyStrip t]
            | _ => []
          else if ty = "image_url" ∨ ty = "input_image" then
            let image_obj := pyOr (jget fs "image_url") (jget fs "url")
            let image_url : JVal :=
              match image_obj with
              | .jobj gs => jgetD gs "url" (.jstr "")
              | v => .jstr (pyStr (pyOr v (.jstr "")))
            if pyTruthy image_url then ["[image] " ++ pyStr image_url] else []
          else if ty ≠ "" then [jdump (.jobj fs)] else []
      | .jnull => []
      | other => if pyTruthy other then [jdump (.jobj fs)] else []
  | _ => []

/-- `extract_message_text`: pull the text out of an OpenAI message
content value. -/
def extract_message_text : JVal → String
  | .jstr s => pyStrip s
  | .jobj fs =>
      match jget fs "text" with
      | .jstr t => pyStrip t
      | _ => jdump (.jobj fs)
  | .jarr items => pyStrip (pyJoin "\n" (List.join (items.map itemParts)))
  | v => pyStrip (pyStr v)

/-- One inbound chat message; `none` fields model absent keys. -/
structure Msg where
  role : Option JVal := none
  content : Option JVal := none

/-- Role normalization of the prompt loop: lowercase, then anything
outside the known set becomes `user`. -/
def normRole (m : Msg) : String :=
  let r := pyLower (pyStr (m.role.getD (.jstr "user")))
  if r = "system" ∨ r = "developer" ∨ r = "user" ∨ r = "assistant" ∨ r = "tool" then r
  else "user"

/-- `single_user_only`: exactly one message whose `role` key is exactly
the string `"user"`. -/
def singleUserOnly (messages : List Msg) : Bool :=
  messages.length = 1 &&
    (match messages.head? with
     | some m => match m.role with
       | some (.jstr r) => r = "user"
       | _ => false
     | none => false)

/-- The `<|role|>\n{text}` renderings of the messages with non-empty
extracted text, in order. -/
def packedOf (messages : List Msg) : List String :=
  messages.filterMap (fun m =>
    if extract_message_text (m.content.getD (.jstr "")) = "" then none
    else some ("<|" ++ normRole m ++ "|>\n" ++
      extract_message_text (m.content.getD (.jstr ""))))

/-- `build_conversation_prompt`. -/
def build_conversation_prompt (messages : List Msg) : String :=
  if singleUserOnly messages then
    match messages.head? with
    | some m => extract_message_text (m.content.getD (.jstr ""))
    | none => ""
  else pyStrip (pyJoin "\n\n" (packedOf messages))

/-- The prompt exactly as claim C7 words it: the single user message's
extracted text verbatim; otherwise the `<|role|>\n{text}` renderings
concatenated with blank-line separators, with no further processing. -/
def promptSpecC7 (messages : List Msg) : String :=
  if singleUserOnly messages then
    match messages.head? with
    | some m => extract_message_text (m.content.getD (.jstr ""))
    | none => ""
  else pyJoin "\n\n" (packedOf messages)

/-- The guard of `chat_completions` right after prompt construction
(lines 700–702): an empty prompt is rejected as a 400 request error
before the upstream request is built or sent. -/
def preparePrompt (messages : List Msg) : Except String String :=
  if build_conversation_prompt messages = "" then .error "messages content is empty"
  else .ok (build_conversation_prompt messages)

/-- The head of a `dropWhile` survivor fails the predicate. -/
theorem dropWhile_head_not {p : α → Bool} :
    ∀ {l : List α} {a : α} {as : List α}, l.dropWhile p = a :: as → p a = false := by
  intro l
  induction l with
  | nil => intro a as h; simp [List.dropWhile] at h
  | cons x xs ih =>
      intro a as h
      rw [List.dropWhile_cons] at h
      split at h
      · exact ih h
      · rename_i hx
        injection h with h1 h2
        subst h1
        simpa using hx

/-- `dropWhile` does nothing when the head already fails the predicate. -/
theorem dropWhile_eq_self_of_head {p : α → Bool} {l : List α}
    (h : ∀ a, l.head? = some a → p a = false) : l.dropWhile p = l := by
  cases l with
  | nil => rfl
  | cons x xs => rw [List.dropWhile_cons, if_neg (by simp [h x rfl])]

/-- The first character surviving a strip is not whitespace. -/
theorem stripList_head_not_ws {l : List Char} {a : Char}
    (h : (stripList l).head? = some a) : isPyWs a = false := by
  unfold stripList at h
  rw [List.head?_reverse] at h
  obtain ⟨t, ht⟩ := @List.dropWhile_suffix Char ((l.dropWhile isPyWs).reverse) isPyWs
  have hr : ((l.dropWhile isPyWs).reverse).getLast? = some a := by
    rw [← ht, List.getLast?_append, h]
    rfl
  rw [List.getLast?_reverse] at hr
  cases hd : l.dropWhile isPyWs with
  | nil => rw [hd] at hr; simp at hr
  | cons x xs =>
      rw [hd] at hr
      simp only [List.head?_cons, Option.some.injEq] at hr
      subst hr
      exact dropWhile_head_not hd

/-- The last character surviving a strip is not whitespace. -/
theorem stripList_getLast_not_ws {l : List Char} {a : Char}
    (h : (stripList l).getLast? = some a) : isPyWs a = false := by
  unfold stripList at h
  rw [List.getLast?_reverse] at h
  cases hd : ((l.dropWhile isPyWs).reverse).dropWhile isPyWs with
  | nil => rw [hd] at h; simp at h
  | cons x xs =>
      rw [hd] at h
      simp only [List.head?_cons, Option.some.injEq] at h
      subst h
      exact dropWhile_head_not hd

/-- Strip is the identity on a list whose two ends are not whitespace. -/
theorem stripList_eq_self {l : List Char}
    (h1 : ∀ a, l.head? = some a → isPyWs a = false)
    (h2 : ∀ a, l.getLast? = some a → isPyWs a = false) : stripList l = l := by
  unfold stripList
  rw [dropWhile_eq_self_of_head h1,
      dropWhile_eq_self_of_head (by
        intro a ha
        rw [List.head?_reverse] at ha
        exact h2 a ha),
      List.reverse_reverse]

/-- Stripping is idempotent. -/
theorem stripList_idem (l : List Char) : stripList (stripList l) = stripList l :=
  stripList_eq_self (fun a ha => stripList_head_not_ws ha)
    (fun a ha => stripList_getLast_not_ws ha)

/-- `pyStrip` is idempotent. -/
theorem pyStrip_idem (s : String) : pyStrip (pyStrip s) = pyStrip s :=
  congrArg String.mk (stripList_idem s.data)

/-- A trimmed non-empty string does not end in whitespace. -/
theorem trimmed_getLast_not_ws {s : String} (htrim : pyStrip s = s) {a : Char}
    (h : s.data.getLast? = some a) : isPyWs a = false := by
  have hd : stripList s.data = s.data := congrArg String.data htrim
  rw [← hd] at h
  exact stripList_getLast_not_ws h

/-- A dumped JSON object is already trimmed: it is brace-delimited. -/
theorem pyStrip_jdump_obj (fs : List (String × JVal)) :
    pyStrip (jdump (.jobj fs)) = jdump (.jobj fs) := by
  have h : stripList (jdump (.jobj fs)).data = (jdump (.jobj fs)).data := by
    apply stripList_eq_self
    · intro a ha
      have : (jdump (.jobj fs)).data =
          "\x7b".data ++ ((jdumpObj fs).data ++ "\x7d".data) := by
        show ("\x7b" ++ jdumpObj fs ++ "\x7d").data = _
        rw [String.data_append, String.data_append, List.append_assoc]
      rw [this, List.head?_append] at ha
      simp only [Option.or] at ha
      injection ha with ha
      subst ha
      decide
    · intro a ha
      have : (jdump (.jobj fs)).data =
          ("\x7b".data ++ (jdumpObj fs).data) ++ "\x7d".data := by
        show ("\x7b" ++ jdumpObj fs ++ "\x7d").data = _
        rw [String.data_append, String.data_append]
      rw [this, List.getLast?_concat] at ha
      injection ha with ha
      subst ha
      decide
  exact congrArg String.mk h

/-- The extracted text of any message content value is trimmed. -/
theorem extract_message_text_trimmed (c : JVal) :
    pyStrip (extract_message_text c) = extract_message_text c := by
  cases c with
  | jstr s => exact pyStrip_idem s
  | jobj fs =>
      cases h : jget fs "text" with
      | jstr t =>
          have he : extract_message_text (.jobj fs) = pyStrip t := by
            simp only [extract_message_text, h]
          rw [he]
          exact pyStrip_idem t
      | jnull =>
          have he : extract_message_text (.jobj fs) = jdump (.jobj fs) := by
            simp only [extract_message_text, h]
          rw [he]
          exact pyStrip_jdump_obj fs
      | jbool b =>
          have he : extract_message_text (.jobj fs) = jdump (.jobj fs) := by
            simp only [extract_message_text, h]
          rw [he]
          exact pyStrip_jdump_obj fs
      | jnum n =>
          have he : extract_message_text (.jobj fs) = jdump (.jobj fs) := by
            simp only [extract_message_text, h]
          rw [he]
          exact pyStrip_jdump_obj fs
      | jarr xs =>
          have he : extract_message_text (.jobj fs) = jdump (.jobj fs) := by
            simp only [extract_message_text, h]
          rw [he]
          exact pyStrip_jdump_obj fs
      | jobj gs =>
          have he : extract_message_text (.jobj fs) = jdump (.jobj fs) := by
            simp only [extract_message_text, h]
          rw [he]
          exact pyStrip_jdump_obj fs
  | jarr items => exact pyStrip_idem _
  | jnull => exact pyStrip_idem _
  | jbool b => exact pyStrip_idem _
  | jnum n => exact pyStrip_idem _

/-- The join of pieces starts like its first piece. -/
theorem joinSepList_head_eq {sep p : List Char} {ps : List (List Char)}
    (hp : p ≠ []) : (joinSepList sep (p :: ps)).head? = p.head? := by
  cases ps with
  | nil => rfl
  | cons q rest =>
      show (p ++ sep ++ joinSepList sep (q :: rest)).head? = p.head?
      rw [List.append_assoc, List.head?_append]
      cases hpd : p with
      | nil => exact absurd hpd hp
      | cons x xs => rfl

/-- A non-empty list's last element is a member. -/
theorem mem_of_getLast?_eq {l : List α} {a : α} (h : l.getLast? = some a) : a ∈ l := by
  induction l with
  | nil => simp at h
  | cons x xs ih =>
      cases xs with
      | nil =>
          simp only [List.getLast?_singleton, Option.some.injEq] at h
          simp [h]
      | cons y ys =>
          rw [List.getLast?_cons_cons] at h
          exact List.mem_cons_of_mem x (ih h)

/-- The join of pieces ends like its last piece, when that is
non-empty. -/
theorem joinSepList_getLast_eq {sep : List Char} :
    ∀ (ps : List (List Char)) (p : List Char), p ≠ [] → ps.getLast? = some p →
    (joinSepList sep ps).getLast? = p.getLast? := by
  intro ps
  induction ps with
  | nil => intro p hp h; simp at h
  | cons q rest ih =>
      intro p hp hlast
      cases rest with
      | nil =>
          simp only [List.getLast?_singleton, Option.some.injEq] at hlast
          rw [hlast]
          rfl
      | cons r rrest =>
          rw [List.getLast?_cons_cons] at hlast
          show (q ++ sep ++ joinSepList sep (r :: rrest)).getLast? = p.getLast?
          rw [List.append_assoc, List.getLast?_append, List.getLast?_append,
              ih p hp hlast]
          obtain ⟨a, ha⟩ := Option.isSome_iff_exists.1 (List.getLast?_isSome.2 hp)
          rw [ha]
          rfl

/-- Stripping after a blank-line join of `<|role|>`-framed trimmed
pieces is the identity. -/
theorem pyStrip_join_packed (packed : List String)
    (hshape : ∀ q ∈ packed, ∃ r c, q = "<|" ++ (r ++ ("|>\n" ++ c)) ∧ c ≠ "" ∧
      pyStrip c = c) :
    pyStrip (pyJoin "\n\n" packed) = pyJoin "\n\n" packed := by
  cases hps : packed with
  | nil => rfl
  | cons p rest =>
      have hshape' := hshape
      rw [hps] at hshape'
      obtain ⟨r0, c0, hq0, hc0ne, hc0tr⟩ := hshape' p (List.mem_cons_self p rest)
      have hpne : p.data ≠ [] := by
        rw [hq0]
        intro hcontra
        have : ('<' :: '|' :: (r0 ++ ("|>\n" ++ c0)).data) = [] := by
          rw [← hcontra, String.data_append]
          rfl
        simp at this
      apply congrArg String.mk
      apply stripList_eq_self
      · intro a ha
        unfold pyJoin at ha
        simp only [List.map_cons] at ha
        rw [joinSepList_head_eq hpne] at ha
        rw [hq0, String.data_append] at ha
        simp only [List.head?_append] at ha
        injection ha with ha
        subst ha
        decide
      · intro a ha
        unfold pyJoin at ha
        obtain ⟨plast, hplast⟩ :
            ∃ x, (p :: rest).getLast? = some x :=
          Option.isSome_iff_exists.1 (List.getLast?_isSome.2 (by simp))
        obtain ⟨rl, cl, hql, hclne, hcltr⟩ := hshape' plast (mem_of_getLast?_eq hplast)
        have hlne : plast.data ≠ [] := by
          rw [hql]
          intro hcontra
          have : ('<' :: '|' :: (rl ++ ("|>\n" ++ cl)).data) = [] := by
            rw [← hcontra, String.data_append]
            rfl
          simp at this
        have hmap : ((p :: rest).map String.data).getLast? = some plast.data := by
          rw [List.getLast?_map, hplast]
          rfl
        rw [List.map_cons] at hmap
        rw [List.map_cons,
            joinSepList_getLast_eq ((p.data) :: rest.map String.data) plast.data hlne hmap]
            at ha
        have hcend : plast.data.getLast? = cl.data.getLast? := by
          rw [hql, String.data_append, String.data_append, String.data_append,
              List.getLast?_append, List.getLast?_append, List.getLast?_append]
          obtain ⟨b, hb⟩ : ∃ x, cl.data.getLast? = some x := by
            apply Option.isSome_iff_exists.1
            apply List.getLast?_isSome.2
            intro hcontra
            exact hclne (congrArg String.mk hcontra)
          rw [hb]
          rfl
        rw [hcend] at ha
        exact trimmed_getLast_not_ws hcltr ha

/-- **C7 (confirmed).**  The built prompt is exactly what the claim
describes: a lone `user` message yields its extracted text verbatim
with no role framing, any other message list yields the
`<|role|>\n{text}` renderings of the messages with non-empty extracted
text joined by blank lines in original order (the trailing `.strip()`
in the code is provably a no-op), and an empty built prompt is rejected
as a request error before any upstream call. -/
theorem c7_prompt_construction :
    (∀ messages : List Msg, build_conversation_prompt messages = promptSpecC7 messages) ∧
    (∀ messages : List Msg, build_conversation_prompt messages = "" →
      preparePrompt messages = .error "messages content is empty") := by
  constructor
  · intro messages
    unfold build_conversation_prompt promptSpecC7
    split
    · rfl
    · apply pyStrip_join_packed
      intro q hq
      obtain ⟨m, hm, hfm⟩ := List.mem_filterMap.1 hq
      split at hfm
      · exact absurd hfm (by simp)
      · rename_i hcne
        injection hfm with hfm
        refine ⟨normRole m, extract_message_text (m.content.getD (.jstr "")), ?_, hcne,
          extract_message_text_trimmed _⟩
        rw [← hfm, String.append_assoc, String.append_assoc]
  · intro messages h
    unfold preparePrompt
    rw [if_pos h]

/-- Witness for `c7_prompt_construction`: the spec's three-message
example, and a lone user message whose content is all whitespace. -/
theorem c7_prompt_construction_witness :
    build_conversation_prompt
        [{ role := some (.jstr "system"), content := some (.jstr "be terse") },
         { role := some (.jstr "user"), content := some (.jstr "hi") },
         { role := some (.jstr "assistant"), content := some (.jstr "hey") }] =
      promptSpecC7
        [{ role := some (.jstr "system"), content := some (.jstr "be terse") },
         { role := some (.jstr "user"), content := some (.jstr "hi") },
         { role := some (.jstr "assistant"), content := some (.jstr "hey") }] ∧
    preparePrompt [{ role := some (.jstr "user"), content := some (.jstr "   ") }] =
      .error "messages content is empty" :=
  ⟨c7_prompt_construction.1 _,
   c7_prompt_construction.2 [{ role := some (.jstr "user"), content := some (.jstr "   ") }]
     (by decide)⟩

/-- Python `line[3:]` (character slicing). -/
def strDrop3 (s : String) : String := ⟨s.data.drop 3⟩

/-- One upstream stream line: the raw text plus the JSON parse of its
remainder after the 3-character tag (`none` models a
`json.JSONDecodeError`; `json.loads` is an external library call, so
its result accompanies the raw line as data). -/
structure ULine where
  raw : String
  parsed : Option JVal

/-- The element loop of the `a2:` branch:
`[img.get("image") for img in data if img.get("image")]`.  A non-dict
element raises (`AttributeError`), modelled as `error`. -/
def imagesOfItems : List JVal → Except Unit (List JVal)
  | [] => .ok []
  | .jobj fs :: rest =>
      match imagesOfItems rest with
      | .error e => .error e
      | .ok imgs =>
          if pyTruthy (jget fs "image") then .ok (jget fs "image" :: imgs)
          else .ok imgs
  | _ :: _ => .error ()

/-- The whole `a2:` image collection.  Iterating a non-list raises
(`TypeError`), except that the empty string and the empty dict iterate
to nothing. -/
def imagesOf : JVal → Except Unit (List JVal)
  | .jarr items => imagesOfItems items
  | .jstr s => if s = "" then .ok [] else .error ()
  | .jobj fs => if fs.isEmpty then .ok [] else .error ()
  | _ => .error ()

/-- `f"![image]({url})"`. -/
def mdImage (v : JVal) : String := "![image](" ++ pyStr v ++ ")"

/-- Per-line outcome of the streaming translator: skipped, an emission
`(content delta, reasoning delta, terminal finish value)`, or an
uncaught Python exception (caught by the generator's outer handler). -/
inductive SLine where
  | skip : SLine
  | out : Option JVal → Option JVal → Option JVal → SLine
  | exc : SLine

/-- Per-line classification of `stream_response` (lines 827–873). -/
def streamLine (l : ULine) : SLine :=
  if pyStrip l.raw = "" then .skip
  else if pyStartsWith l.raw "a0:" then
    match l.parsed with
    | none => .skip
    | some (.jstr s) =>
        if s = "hasArenaError" then
          .out (some (.jstr "[Arena Error]")) none (some (.jstr "stop"))
        else .out (some (.jstr s)) none none
    | some .jnull => .out none none none
    | some p => .out (some p) none none
  else if pyStartsWith l.raw "ag:" then
    match l.parsed with
    | none => .skip
    | some .jnull => .out none none none
    | some p => .out none (some p) none
  else if pyStartsWith l.raw "ad:" then
    match l.parsed with
    | none => .out none none (some (.jstr "stop"))
    | some (.jobj fs) =>
        .out none none (some (if pyTruthy (jget fs "finishReason")
          then jget fs "finishReason" else .jstr "stop"))
    | some _ => .exc
  else if pyStartsWith l.raw "a2:" then
    if strContains l.raw "heartbeat" then .skip
    else match l.parsed with
    | none => .skip
    | some p =>
        match imagesOf p with
        | .error _ => .exc
        | .ok imgs =>
            if imgs.isEmpty then .out none none none
            else .out (some (.jstr (pyJoin "\n" (imgs.map mdImage)))) none none
  else if pyStartsWith l.raw "a3:" then
    .out (some (.jstr ("[Error: " ++
      (match l.parsed with
       | some p => pyStr p
       | none => strDrop3 l.raw) ++ "]"))) none (some (.jstr "stop"))
  else .skip

/-- OpenAI-side output events of the streaming translator. -/
inductive Chunk where
  | contentC : JVal → Chunk
  | reasoningC : JVal → Chunk
  | finishC : JVal → Chunk
  | doneC : Chunk
  | streamErrC : Chunk

/-- The non-terminal chunks one emission produces: the content chunk,
then the reasoning chunk. -/
def lineChunks (c r : Option JVal) : List Chunk :=
  (match c with | some v => [Chunk.contentC v] | none => []) ++
  (match r with | some v => [Chunk.reasoningC v] | none => [])

/-- `stream_response` over a whole line sequence: content then
reasoning then finish chunk per line, `data: [DONE]` and stop after a
terminal event, one error chunk plus done marker after an exception. -/
def streamRun : List ULine → List Chunk
  | [] => []
  | l :: ls =>
      match streamLine l with
      | .skip => streamRun ls
      | .exc => [.streamErrC, .doneC]
      | .out c r f =>
          lineChunks c r ++
          (match f with
           | some v => [Chunk.finishC v, Chunk.doneC]
           | none => streamRun ls)

/-- Accumulator of `non_stream_response` (lines 940–976). -/
structure BufState where
  content_parts : List String := []
  reasoning_parts : List String := []
  finish_reason : JVal := .jstr "stop"
  usage : Option JVal := none

/-- Per-line accumulation of `non_stream_response`; `error` models the
uncaught exception path that becomes an HTTP 500. -/
def bufLine (st : BufState) (l : ULine) : Except Unit BufState :=
  if pyStrip l.raw = "" then .ok st
  else if pyStartsWith l.raw "a0:" then
    match l.parsed with
    | some (.jstr s) =>
        if s ≠ "hasArenaError" then
          .ok { st with content_parts := st.content_parts ++ [s] }
        else .ok st
    | _ => .ok st
  else if pyStartsWith l.raw "ag:" then
    match l.parsed with
    | some (.jstr s) => .ok { st with reasoning_parts := st.reasoning_parts ++ [s] }
    | _ => .ok st
  else if pyStartsWith l.raw "ad:" then
    match l.parsed with
    | none => .ok st
    | some (.jobj fs) =>
        .ok { st with
          finish_reason := if pyTruthy (jget fs "finishReason") then jget fs "finishReason"
                            else st.finish_reason,
          usage := if pyTruthy (jget fs "usage") then some (jget fs "usage") else st.usage }
    | some _ => .error ()
  else if pyStartsWith l.raw "a2:" then
    if strContains l.raw "heartbeat" then .ok st
    else match l.parsed with
    | none => .ok st
    | some p =>
        match imagesOf p with
        | .error _ => .error ()
        | .ok imgs => .ok { st with content_parts := st.content_parts ++ imgs.map mdImage }
  else if pyStartsWith l.raw "a3:" then
    .ok { st with content_parts := st.content_parts ++
      ["[Error: " ++ (match l.parsed with
        | some p => pyStr p
        | none => strDrop3 l.raw) ++ "]"] }
  else .ok st

/-- Buffered translation of a whole line sequence. -/
def bufRun (lines : List ULine) : Except Unit BufState :=
  lines.foldlM bufLine {}

/-- The string content deltas of a chunk sequence. -/
def contentStrings (chunks : List Chunk) : List String :=
  chunks.filterMap (fun c => match c with
    | .contentC (.jstr s) => some s
    | _ => none)

/-- The string reasoning deltas of a chunk sequence. -/
def reasoningStrings (chunks : List Chunk) : List String :=
  chunks.filterMap (fun c => match c with
    | .reasoningC (.jstr s) => some s
    | _ => none)

/-- Buffered content joined, `none` on the exception path. -/
def bufContentJoined (lines : List ULine) : Option String :=
  match bufRun lines with
  | .ok st => some (String.join st.content_parts)
  | .error _ => none

/-- A line on which the streaming translator stops: a terminal emission
or an exception. -/
def terminalLine (l : ULine) : Bool :=
  match streamLine l with
  | .out _ _ (some _) => true
  | .exc => true
  | _ => false

/-- The line discipline under which buffered and streaming translation
agree on accumulated content: no terminal event (`ad:`, `a3:`, the
`a0:` sentinel), string payloads on `a0:`/`ag:` (buffered mode drops
non-string payloads that stream mode would emit), and at most one
image per `a2:` batch (buffered mode concatenates several images
without the newline the streaming join inserts). -/
def goodLine (l : ULine) : Bool :=
  !pyStartsWith l.raw "ad:" && !pyStartsWith l.raw "a3:" &&
  (if pyStartsWith l.raw "a0:" then
    match l.parsed with
    | none => true
    | some (.jstr s) => s != "hasArenaError"
    | some _ => false
   else true) &&
  (if pyStartsWith l.raw "ag:" then
    match l.parsed with
    | none => true
    | some (.jstr _) => true
    | some _ => false
   else true) &&
  (if pyStartsWith l.raw "a2:" && !strContains l.raw "heartbeat" then
    match l.parsed with
    | none => true
    | some p =>
        match imagesOf p with
        | .ok imgs => decide (imgs.length ≤ 1)
        | .error _ => false
   else true)

/-- On a good line, buffered accumulation appends exactly the string
deltas that stream mode emits, and the line is not terminal. -/
theorem goodLine_step (l : ULine) (hl : goodLine l = true) (st : BufState) :
    ∃ cs rs : List String,
      bufLine st l = .ok { st with content_parts := st.content_parts ++ cs,
                                   reasoning_parts := st.reasoning_parts ++ rs } ∧
      ((streamLine l = .skip ∧ cs = [] ∧ rs = []) ∨
       (∃ c r, streamLine l = .out c r none ∧
         contentStrings (lineChunks c r) = cs ∧
         reasoningStrings (lineChunks c r) = rs)) := by
  unfold goodLine at hl
  simp only [Bool.and_eq_true, Bool.not_eq_true'] at hl
  obtain ⟨⟨⟨⟨had, ha3⟩, h0⟩, hg⟩, h2⟩ := hl
  by_cases hblank : pyStrip l.raw = ""
  · refine ⟨[], [], ?_, Or.inl ⟨?_, rfl, rfl⟩⟩
    · unfold bufLine
      rw [if_pos hblank]
      simp
    · unfold streamLine
      rw [if_pos hblank]
  · by_cases h0p : pyStartsWith l.raw "a0:" = true
    · rw [if_pos h0p] at h0
      cases hp : l.parsed with
      | none =>
          refine ⟨[], [], ?_, Or.inl ⟨?_, rfl, rfl⟩⟩
          · unfold bufLine
            rw [if_neg hblank, if_pos h0p]
            simp only [hp]
            simp
          · unfold streamLine
            rw [if_neg hblank, if_pos h0p]
            simp only [hp]
      | some p =>
          cases p with
          | jstr s =>
              rw [hp] at h0
              have hs : s ≠ "hasArenaError" := by simpa using h0
              refine ⟨[s], [], ?_, Or.inr ⟨some (.jstr s), none, ?_, rfl, rfl⟩⟩
              · unfold bufLine
                rw [if_neg hblank, if_pos h0p]
                simp only [hp]
                rw [if_pos hs]
                simp
              · unfold streamLine
                rw [if_neg hblank, if_pos h0p]
                simp only [hp]
                rw [if_neg hs]
          | jnull => rw [hp] at h0; simp at h0
          | jbool b => rw [hp] at h0; simp at h0
          | jnum n => rw [hp] at h0; simp at h0
          | jarr xs => rw [hp] at h0; simp at h0
          | jobj fs => rw [hp] at h0; simp at h0
    · by_cases hgp : pyStartsWith l.raw "ag:" = true
      · rw [if_pos hgp] at hg
        cases hp : l.parsed with
        | none =>
            refine ⟨[], [], ?_, Or.inl ⟨?_, rfl, rfl⟩⟩
            · unfold bufLine
              rw [if_neg hblank, if_neg h0p, if_pos hgp]
              simp only [hp]
              simp
            · unfold streamLine
              rw [if_neg hblank, if_neg h0p, if_pos hgp]
              simp only [hp]
        | some p =>
            cases p with
            | jstr s =>
                refine ⟨[], [s], ?_, Or.inr ⟨none, some (.jstr s), ?_, rfl, rfl⟩⟩
                · unfold bufLine
                  rw [if_neg hblank, if_neg h0p, if_pos hgp]
                  simp only [hp]
                  simp
                · unfold streamLine
                  rw [if_neg hblank, if_neg h0p, if_pos hgp]
                  simp only [hp]
            | jnull => rw [hp] at hg; simp at hg
            | jbool b => rw [hp] at hg; simp at hg
            | jnum n => rw [hp] at hg; simp at hg
            | jarr xs => rw [hp] at hg; simp at hg
            | jobj fs => rw [hp] at hg; simp at hg
      · by_cases h2p : pyStartsWith l.raw "a2:" = true
        · by_cases hhb : strContains l.raw "heartbeat" = true
          · refine ⟨[], [], ?_, Or.inl ⟨?_, rfl, rfl⟩⟩
            · unfold bufLine
              rw [if_neg hblank, if_neg h0p, if_neg hgp, if_neg (by simp [had]),
                  if_pos h2p, if_pos hhb]
              simp
            · unfold streamLine
              rw [if_neg hblank, if_neg h0p, if_neg hgp, if_neg (by simp [had]),
                  if_pos h2p, if_pos hhb]
          · rw [if_pos (by simp [h2p, hhb])] at h2
            cases hp : l.parsed with
            | none =>
                refine ⟨[], [], ?_, Or.inl ⟨?_, rfl, rfl⟩⟩
                · unfold bufLine
                  rw [if_neg hblank, if_neg h0p, if_neg hgp, if_neg (by simp [had]),
                      if_pos h2p, if_neg hhb]
                  simp only [hp]
                  simp
                · unfold streamLine
                  rw [if_neg hblank, if_neg h0p, if_neg hgp, if_neg (by simp [had]),
                      if_pos h2p, if_neg hhb]
                  simp only [hp]
            | some p =>
                simp only [hp] at h2
                cases him : imagesOf p with
                | error e => simp only [him] at h2; simp at h2
                | ok imgs =>
                    simp only [him] at h2
                    cases imgs with
                    | nil =>
                        refine ⟨[], [], ?_, Or.inr ⟨none, none, ?_, rfl, rfl⟩⟩
                        · unfold bufLine
                          rw [if_neg hblank, if_neg h0p, if_neg hgp, if_neg (by simp [had]),
                              if_pos h2p, if_neg hhb]
                          simp only [hp, him]
                          simp
                        · unfold streamLine
                          rw [if_neg hblank, if_neg h0p, if_neg hgp, if_neg (by simp [had]),
                              if_pos h2p, if_neg hhb]
                          simp only [hp, him]
                          rfl
                    | cons u us =>
                        cases us with
                        | nil =>
                            refine ⟨[mdImage u], [],
                              ?_, Or.inr ⟨some (.jstr (pyJoin "\n" ([u].map mdImage))), none,
                                ?_, rfl, rfl⟩⟩
                            · unfold bufLine
                              rw [if_neg hblank, if_neg h0p, if_neg hgp, if_neg (by simp [had]),
                                  if_pos h2p, if_neg hhb]
                              simp only [hp, him]
                              simp
                            · unfold streamLine
                              rw [if_neg hblank, if_neg h0p, if_neg hgp, if_neg (by simp [had]),
                                  if_pos h2p, if_neg hhb]
                              simp only [hp, him]
                              rfl
                        | cons v vs => simp at h2
        · refine ⟨[], [], ?_, Or.inl ⟨?_, rfl, rfl⟩⟩
          · unfold bufLine
            rw [if_neg hblank, if_neg h0p, if_neg hgp, if_neg (by simp [had]),
                if_neg h2p, if_neg (by simp [ha3])]
            simp
          · unfold streamLine
            rw [if_neg hblank, if_neg h0p, if_neg hgp, if_neg (by simp [had]),
                if_neg h2p, if_neg (by simp [ha3])]

/-- `streamRun` unfolding on a skipped line. -/
theorem streamRun_cons_skip {l : ULine} {ls : List ULine}
    (h : streamLine l = .skip) : streamRun (l :: ls) = streamRun ls := by
  conv_lhs => unfold streamRun
  simp only [h]

/-- `streamRun` unfolding on a non-terminal emission. -/
theorem streamRun_cons_out_none {l : ULine} {ls : List ULine} {c r : Option JVal}
    (h : streamLine l = .out c r none) :
    streamRun (l :: ls) = lineChunks c r ++ streamRun ls := by
  conv_lhs => unfold streamRun
  simp only [h]

/-- Buffered accumulation over good lines appends exactly the string
content/reasoning deltas of the stream run. -/
theorem bufRun_appends :
    ∀ (lines : List ULine), (∀ l ∈ lines, goodLine l = true) →
    ∀ st : BufState, ∃ st' : BufState,
      List.foldlM bufLine st lines = .ok st' ∧
      st'.content_parts = st.content_parts ++ contentStrings (streamRun lines) ∧
      st'.reasoning_parts = st.reasoning_parts ++ reasoningStrings (streamRun lines) := by
  intro lines
  induction lines with
  | nil =>
      intro _ st
      exact ⟨st, rfl, by simp [streamRun, contentStrings], by simp [streamRun, reasoningStrings]⟩
  | cons l ls ih =>
      intro hgood st
      obtain ⟨cs, rs, hbuf, hrest⟩ :=
        goodLine_step l (hgood l (List.mem_cons_self l ls)) st
      obtain ⟨st', hfold, hc, hr⟩ :=
        ih (fun q hq => hgood q (List.mem_cons_of_mem l hq))
          { st with content_parts := st.content_parts ++ cs,
                    reasoning_parts := st.reasoning_parts ++ rs }
      refine ⟨st', ?_, ?_, ?_⟩
      · rw [List.foldlM_cons, hbuf]
        exact hfold
      · rw [hc]
        rcases hrest with ⟨hsl, hcs, hrs⟩ | ⟨c, r, hsl, hcs, hrs⟩
        · subst hcs
          rw [streamRun_cons_skip hsl]
          simp
        · subst hcs
          rw [streamRun_cons_out_none hsl]
          unfold contentStrings
          rw [List.filterMap_append, ← List.append_assoc]
      · rw [hr]
        rcases hrest with ⟨hsl, hcs, hrs⟩ | ⟨c, r, hsl, hcs, hrs⟩
        · subst hrs
          rw [streamRun_cons_skip hsl]
          simp
        · subst hrs
          rw [streamRun_cons_out_none hsl]
          unfold reasoningStrings
          rw [List.filterMap_append, ← List.append_assoc]

/-- The stream translator never reads past a terminal line. -/
theorem streamRun_stops_at_terminal :
    ∀ (pre : List ULine) (t : ULine) (post : List ULine), terminalLine t = true →
    streamRun (pre ++ t :: post) = streamRun (pre ++ [t]) := by
  intro pre
  induction pre with
  | nil =>
      intro t post ht
      unfold terminalLine at ht
      show streamRun (t :: post) = streamRun [t]
      unfold streamRun
      cases hsl : streamLine t with
      | skip => rw [hsl] at ht; simp at ht
      | exc => simp only [hsl]
      | out c r f =>
          rw [hsl] at ht
          cases f with
          | none => simp at ht
          | some v => simp only [hsl]
  | cons x pre ih =>
      intro t post ht
      show streamRun (x :: (pre ++ t :: post)) = streamRun (x :: (pre ++ [t]))
      unfold streamRun
      cases hsl : streamLine x with
      | skip => simp only [hsl]; exact ih t post ht
      | exc => simp only [hsl]
      | out c r f =>
          simp only [hsl]
          cases f with
          | none => rw [ih t post ht]
          | some v => rfl

/-- **C1** (amended).  Over line sequences with no terminal event and
string-only `a0:`/`ag:` payloads with at most one image per `a2:`
batch, buffered translation accumulates exactly the content (and
reasoning) deltas the streaming translator emits, so the joined
buffered content equals the concatenation of the stream's content
deltas; and the streaming translator never reads lines past a terminal
event.  Buffered mode, unlike the claim, has no termination rule: it
keeps reading and accumulating after `ad:`, after the `a0:` error
sentinel, and after `a3:` (see the counterexample). -/
theorem c1_buffered_matches_stream :
    (∀ lines : List ULine, (∀ l ∈ lines, goodLine l = true) →
      ∃ st : BufState, bufRun lines = .ok st ∧
        st.content_parts = contentStrings (streamRun lines) ∧
        String.join st.content_parts = String.join (contentStrings (streamRun lines)) ∧
        st.reasoning_parts = reasoningStrings (streamRun lines)) ∧
    (∀ (pre : List ULine) (t : ULine) (post : List ULine), terminalLine t = true →
      streamRun (pre ++ t :: post) = streamRun (pre ++ [t])) := by
  constructor
  · intro lines hgood
    obtain ⟨st', hfold, hc, hr⟩ := bufRun_appends lines hgood {}
    refine ⟨st', hfold, ?_, ?_, ?_⟩
    · simpa using hc
    · rw [hc]
      simp
    · simpa using hr
  · exact streamRun_stops_at_terminal

/-- Turn-completion line `ad:{}` followed by a content line. -/
def c1LinesA : List ULine :=
  [⟨"ad:\x7b\x7d", some (.jobj [])⟩, ⟨"a0:\"X\"", some (.jstr "X")⟩]

/-- The error-sentinel line. -/
def c1LinesB : List ULine := [⟨"a0:\"hasArenaError\"", some (.jstr "hasArenaError")⟩]

/-- An `a2:` image batch with two images. -/
def c1LinesC : List ULine :=
  [⟨"a2:[IMAGES]", some (.jarr [.jobj [("image", .jstr "u1")],
                               .jobj [("image", .jstr "u2")]])⟩]

/-- **C1 counterexample.**  Three inputs on which the buffered content
differs from the concatenated stream content deltas: (A) buffered mode
keeps accumulating after the terminal `ad:` line, which stream mode
never reads past; (B) the `a0:` sentinel emits an `[Arena Error]`
delta in stream mode but contributes nothing to buffered mode; (C) a
two-image `a2:` batch is joined with a newline in stream mode but
concatenated bare in buffered mode. -/
theorem c1_counterexample :
    bufContentJoined c1LinesA ≠
      some (String.join (contentStrings (streamRun c1LinesA))) ∧
    bufContentJoined c1LinesB ≠
      some (String.join (contentStrings (streamRun c1LinesB))) ∧
    bufContentJoined c1LinesC ≠
      some (String.join (contentStrings (streamRun c1LinesC))) ∧
    bufContentJoined c1LinesA = some "X" ∧
    String.join (contentStrings (streamRun c1LinesA)) = "" ∧
    bufContentJoined c1LinesB = some "" ∧
    String.join (contentStrings (streamRun c1LinesB)) = "[Arena Error]" ∧
    bufContentJoined c1LinesC = some "![image](u1)![image](u2)" ∧
    String.join (contentStrings (streamRun c1LinesC)) = "![image](u1)\n![image](u2)" := by
  refine ⟨?_, ?_, ?_, ?_, ?_, ?_, ?_, ?_, ?_⟩ <;> decide

/-- Good lines for the C1 witness: two content deltas, one reasoning
delta, a heartbeat, an unparsable line. -/
def c1WitnessLines : List ULine :=
  [⟨"a0:\"He\"", some (.jstr "He")⟩,
   ⟨"a0:\"llo\"", some (.jstr "llo")⟩,
   ⟨"ag:\"think\"", some (.jstr "think")⟩,
   ⟨"a2: heartbeat ping", none⟩,
   ⟨"a0:not json", none⟩]

/-- Witness for `c1_buffered_matches_stream` at `c1WitnessLines`, plus
the termination conjunct at the terminal line `ad:` with a pending
line behind it. -/
theorem c1_buffered_matches_stream_witness :
    (∃ st : BufState, bufRun c1WitnessLines = .ok st ∧
      st.content_parts = contentStrings (streamRun c1WitnessLines) ∧
      String.join st.content_parts =
        String.join (contentStrings (streamRun c1WitnessLines)) ∧
      st.reasoning_parts = reasoningStrings (streamRun c1WitnessLines)) ∧
    streamRun ([] ++ (⟨"ad:\x7b\x7d", some (.jobj [])⟩ : ULine) ::
        [(⟨"a0:\"X\"", some (.jstr "X")⟩ : ULine)]) =
      streamRun ([] ++ [(⟨"ad:\x7b\x7d", some (.jobj [])⟩ : ULine)]) :=
  ⟨c1_buffered_matches_stream.1 c1WitnessLines (by decide),
   c1_buffered_matches_stream.2 [] ⟨"ad:\x7b\x7d", some (.jobj [])⟩
     [⟨"a0:\"X\"", some (.jstr "X")⟩] (by decide)⟩
